import Mathlib

/-!
Verification of the DuckDB data-warehouse core of the house-price MLOps
repository: connection lifecycle (`database.py`), schema management and
dimension seeding (`schema.py`), CSV -> raw -> fact ingestion and post-load
validation (`ingestion.py`).

The embedding is shallow: the warehouse state is an explicit record of
optional tables (a `none` table models a table that does not exist, so a SQL
statement touching it raises), pandas dataframes are lists of rows carrying
their integer index labels, and Python exceptions are an explicit error type
threaded through `Except`.  The file is organised as: definitions (the
embedding), then helper lemmas, then one theorem per claim.
-/

namespace DWH

/-! ## Python-level modelling primitives -/

/-- Exception taxonomy: `valueError` models Python's built-in `ValueError`
(raised by `_load_and_validate_csv` for missing columns), `engineError`
models an exception raised by the embedded DuckDB engine, and the remaining
constructors model the custom classes of `src/core/exceptions.py`
(`DataQueryError`, `DataConnectionError`, `DatabaseError`). -/
inductive PyError where
  | valueError (msg : String)
  | engineError (msg : String)
  | dataQueryError (msg : String)
  | dataConnectionError (msg : String)
  | databaseError (msg : String)
deriving DecidableEq, Repr

/-- Whether an exception is an instance of `DataQueryError`. -/
def PyError.isDataQueryError : PyError → Bool
  | .dataQueryError _ => true
  | _ => false

/-- Equality of fallible results is decidable, so concrete pipeline runs can
be checked by evaluation. -/
instance instDecEqExcept {ε α : Type} [DecidableEq ε] [DecidableEq α] :
    DecidableEq (Except ε α) := fun x y =>
  match x, y with
  | .ok a, .ok b =>
      decidable_of_iff (a = b)
        ⟨fun h => by rw [h], fun h => by injection h⟩
  | .error e, .error e2 =>
      decidable_of_iff (e = e2)
        ⟨fun h => by rw [h], fun h => by injection h⟩
  | .ok _, .error _ => isFalse (fun h => Except.noConfusion h)
  | .error _, .ok _ => isFalse (fun h => Except.noConfusion h)

/-- Python `int(x)` on a float: truncation toward zero. -/
def pyInt (q : ℚ) : ℤ := if 0 ≤ q then ⌊q⌋ else ⌈q⌉

/-- Attach pandas-style integer index labels `n, n+1, ...` to a list
(`pd.read_csv` gives a dataframe the RangeIndex `0..N-1`; filtering keeps
labels, it never renumbers them). -/
def withPositions {β : Type} : ℕ → List β → List (ℕ × β)
  | _, [] => []
  | n, b :: rest => (n, b) :: withPositions (n + 1) rest

/-! ## Connection manager (`database.py`) -/

/-- A live DuckDB connection handle, abstracted by the one observable that
matters to `disconnect`: whether its underlying `close()` call raises. -/
structure ConnHandle where
  closeRaises : Bool
deriving DecidableEq, Repr

/-- `DWHManager.disconnect` (database.py:73-81): `if self.connection:` then
`try: self.connection.close(); self.connection = None except: log-warning`.
The input is the stored handle (`none` when not connected), the output is the
stored handle after the call.  When the handle is absent nothing happens;
when `close()` succeeds the handle is cleared; when `close()` raises, the
exception is swallowed by the `except` branch and — because the assignment
`self.connection = None` sits after `close()` inside the `try` — the stale
handle stays stored.  The function is total: `disconnect` never raises. -/
def disconnect (conn : Option ConnHandle) : Option ConnHandle :=
  match conn with
  | none => none
  | some h => if h.closeRaises then some h else none

/-- `DWHManager.execute_query` (database.py:83-108): runs the statement on
the engine; on success returns the dataframe, on failure logs the statement
and re-raises the caught exception unchanged (bare `raise`).  The engine is
abstracted as a function from the SQL text to a fallible result; the result
type is a parameter since only control flow matters here. -/
def execute_query {α : Type} (engine : String → Except String α)
    (query : String) : Except PyError α :=
  match engine query with
  | .ok df => .ok df
  | .error e => .error (.engineError e)

/-- Whether an `execute_query` outcome is a raised `DataQueryError`. -/
def raisesDataQueryError {α : Type} : Except PyError α → Bool
  | .error e => e.isDataQueryError
  | .ok _ => false

/-- An engine call that fails, as DuckDB does on a missing table. -/
def failingEngine : String → Except String Unit :=
  fun _ => .error "Catalog Error: Table with name missing does not exist"

/-! ## CSV loading and validation (`ingestion.py: _load_and_validate_csv`) -/

/-- One cell of a column that `pd.to_numeric` is applied to: a numeric value
(numeric CSV cells, including numeric strings, parse to numbers), a
non-numeric string, or a missing value (NaN). -/
inductive CsvCell where
  | num (q : ℚ)
  | text (s : String)
  | missing
deriving DecidableEq, Repr

/-- `pd.to_numeric(column, errors='coerce')` on one cell: non-numeric cells
become NaN (`none`). -/
def toNumeric : CsvCell → Option ℚ
  | .num q => some q
  | .text _ => none
  | .missing => none

/-- One row of the CSV as read by `pd.read_csv`: the five numeric-candidate
columns, plus the two string columns (where `none` models a NaN produced by
an empty cell). -/
structure CsvRow where
  price : CsvCell
  sqft : CsvCell
  bedrooms : CsvCell
  bathrooms : CsvCell
  yearBuilt : CsvCell
  location : Option String
  condition : Option String
deriving DecidableEq, Repr

/-- A CSV row after the five `pd.to_numeric(..., errors='coerce')` calls. -/
structure CoercedRow where
  price : Option ℚ
  sqft : Option ℚ
  bedrooms : Option ℚ
  bathrooms : Option ℚ
  yearBuilt : Option ℚ
  location : Option String
  condition : Option String
deriving DecidableEq, Repr

/-- The coercion step of `_load_and_validate_csv` (ingestion.py:110-114). -/
def coerceRow (r : CsvRow) : CoercedRow :=
  { price := toNumeric r.price
  , sqft := toNumeric r.sqft
  , bedrooms := toNumeric r.bedrooms
  , bathrooms := toNumeric r.bathrooms
  , yearBuilt := toNumeric r.yearBuilt
  , location := r.location
  , condition := r.condition }

/-- A row that survived `df.dropna()`: every column holds a value. -/
structure ValidRow where
  price : ℚ
  sqft : ℚ
  bedrooms : ℚ
  bathrooms : ℚ
  yearBuilt : ℚ
  location : String
  condition : String
deriving DecidableEq, Repr

/-- `df.dropna()` on one row (ingestion.py:117-118): kept iff no column is
NaN. -/
def dropnaRow (r : CoercedRow) : Option ValidRow :=
  match r.price, r.sqft, r.bedrooms, r.bathrooms, r.yearBuilt, r.location,
      r.condition with
  | some p, some s, some bd, some ba, some y, some loc, some cond =>
      some ⟨p, s, bd, ba, y, loc, cond⟩
  | _, _, _, _, _, _, _ => none

/-- The range filter of `_load_and_validate_csv` (ingestion.py:125-132):
`price>0 & sqft>0 & bedrooms>0 & bathrooms>0 & year_built>=1900 &
year_built<=datetime.now().year`.  `currentYear` models
`datetime.now().year`. -/
def rangeOk (currentYear : ℤ) (v : ValidRow) : Bool :=
  decide (0 < v.price) && decide (0 < v.sqft) && decide (0 < v.bedrooms)
    && decide (0 < v.bathrooms) && decide ((1900 : ℚ) ≤ v.yearBuilt)
    && decide (v.yearBuilt ≤ (currentYear : ℚ))

/-- A CSV file: the header (column names) and the data rows. -/
structure CsvFile where
  columns : List String
  rows : List CsvRow
deriving DecidableEq, Repr

/-- `required_columns` of `_load_and_validate_csv` (ingestion.py:103). -/
def required_columns : List String :=
  ["price", "sqft", "bedrooms", "bathrooms", "location", "year_built",
   "condition"]

/-- The validated dataframe together with the two separately logged drop
counts (rows removed by the coercion/`dropna` step, then rows removed by the
range filter).  The rows keep their original index labels. -/
structure LoadResult where
  rows : List (ℕ × ValidRow)
  coercionDropped : ℕ
  rangeDropped : ℕ
deriving DecidableEq, Repr

/-- The labelled dataframe after the five coercions
(ingestion.py:110-114). -/
def coercedRows (f : CsvFile) : List (ℕ × CoercedRow) :=
  (withPositions 0 f.rows).map (fun p => (p.1, coerceRow p.2))

/-- The labelled dataframe after `df.dropna()` (ingestion.py:117-118). -/
def keptRows (f : CsvFile) : List (ℕ × ValidRow) :=
  (coercedRows f).filterMap (fun p => (dropnaRow p.2).map (fun v => (p.1, v)))

/-- The labelled dataframe after the range filter
(ingestion.py:125-132). -/
def finalRows (currentYear : ℤ) (f : CsvFile) : List (ℕ × ValidRow) :=
  (keptRows f).filter (fun p => rangeOk currentYear p.2)

/-- `_load_and_validate_csv` (ingestion.py:87-139): check required columns
(missing columns raise `ValueError`), coerce the five numeric columns, drop
rows with any NaN (count logged), then apply the range filter (count
logged).  The coercion/`dropna` step runs strictly before the range
filter. -/
def load_and_validate_csv (currentYear : ℤ) (f : CsvFile) :
    Except PyError LoadResult :=
  if (required_columns.filter (fun c => !(f.columns.contains c))).isEmpty then
    .ok { rows := finalRows currentYear f
        , coercionDropped := (coercedRows f).length - (keptRows f).length
        , rangeDropped :=
            (keptRows f).length - (finalRows currentYear f).length }
  else
    .error (.valueError "Missing required columns")

/-! ## Warehouse state (`schema.py: HOUSE_PRICE_SCHEMA`)

Each table is `Option (List row)`: `none` means the table does not exist.
Timestamp/date columns populated by SQL defaults (`created_at`,
`updated_at`, `transaction_date`) are omitted except for the dimension
tables' `created_at`, which matters to the upsert contract. -/

/-- One row of `raw_house_data` (`created_at`/`updated_at` defaults
omitted). -/
structure RawRow where
  id : ℤ
  price : ℚ
  sqft : ℤ
  bedrooms : ℤ
  bathrooms : ℚ
  location : String
  yearBuilt : ℤ
  condition : String
deriving DecidableEq, Repr

/-- One row of `dim_locations`. -/
structure DimLocationRow where
  locationId : ℤ
  locationName : String
  locationType : String
  isActive : Bool
  createdAt : ℕ
deriving DecidableEq, Repr

/-- One row of `dim_conditions`. -/
structure DimConditionRow where
  conditionId : ℤ
  conditionName : String
  conditionScore : ℤ
  isActive : Bool
  createdAt : ℕ
deriving DecidableEq, Repr

/-- One row of `dim_years`. -/
structure DimYearRow where
  yearId : ℤ
  yearValue : ℤ
  decade : String
  century : String
  isActive : Bool
  createdAt : ℕ
deriving DecidableEq, Repr

/-- One row of `fact_house_transactions`, restricted to the nine columns the
ingestion inserts (`transaction_date`/timestamps are SQL defaults). -/
structure FactRow where
  transactionId : ℤ
  houseId : ℤ
  locationId : ℤ
  conditionId : ℤ
  yearBuiltId : ℤ
  price : ℚ
  sqft : ℤ
  bedrooms : ℤ
  bathrooms : ℚ
deriving DecidableEq, Repr

/-- The warehouse: five tables (`none` = not created) and the set of views
(views have no queryable state of their own beyond their DDL name). -/
structure DBState where
  rawHouseData : Option (List RawRow)
  dimLocations : Option (List DimLocationRow)
  dimConditions : Option (List DimConditionRow)
  dimYears : Option (List DimYearRow)
  factHouseTransactions : Option (List FactRow)
  views : List String
deriving DecidableEq, Repr

/-- A freshly created database file: no tables, no views. -/
def emptyDB : DBState :=
  { rawHouseData := none
  , dimLocations := none
  , dimConditions := none
  , dimYears := none
  , factHouseTransactions := none
  , views := [] }

/-! ## Schema creation (`schema.py`) -/

/-- `CREATE OR REPLACE VIEW name` as it affects the set of views. -/
def addView (vs : List String) (v : String) : List String :=
  if v ∈ vs then vs else vs ++ [v]

/-- The four views of `HOUSE_PRICE_SCHEMA`. -/
def viewNames : List String :=
  ["v_house_analytics", "v_summary_statistics", "v_location_analytics",
   "v_condition_analytics"]

/-- Apply the four `CREATE OR REPLACE VIEW` statements. -/
def addViews (vs : List String) : List String :=
  viewNames.foldl addView vs

/-- The DDL part of `create_schema` (`HOUSE_PRICE_SCHEMA`,
schema.py:17-152): five `CREATE TABLE IF NOT EXISTS` statements (an existing
table and its rows are untouched) and four `CREATE OR REPLACE VIEW`
statements. -/
def runSchemaDDL (s : DBState) : DBState :=
  { rawHouseData := some (s.rawHouseData.getD [])
  , dimLocations := some (s.dimLocations.getD [])
  , dimConditions := some (s.dimConditions.getD [])
  , dimYears := some (s.dimYears.getD [])
  , factHouseTransactions := some (s.factHouseTransactions.getD [])
  , views := addViews s.views }

/-- `INSERT ... ON CONFLICT (key) DO UPDATE SET ...` for a single value row:
if some table row carries the conflict key, every such row has its
non-key payload columns updated; otherwise the new row is appended. -/
def upsertOne {α : Type} (key : α → ℤ) (k : ℤ) (upd : α → α) (new : α)
    (l : List α) : List α :=
  if l.any (fun r => decide (key r = k)) then
    l.map (fun r => if key r = k then upd r else r)
  else l ++ [new]

/-- A multi-row upsert statement: one `upsertOne` per value row, in order.
`sKey` is the seed's conflict-key, `upd sp` overwrites the payload columns
with the seed's values, `mkNew sp` is the freshly inserted row. -/
def upsertSeeds {α σ : Type} (key : α → ℤ) (sKey : σ → ℤ) (upd : σ → α → α)
    (mkNew : σ → α) (seeds : List σ) (l : List α) : List α :=
  seeds.foldl (fun acc sp => upsertOne key (sKey sp) (upd sp) (mkNew sp) acc) l

/-- Every table row carrying key `k` already has its payload fixed by `f`,
and at least one such row exists. -/
def KeyFixed {α : Type} (key : α → ℤ) (k : ℤ) (f : α → α) (l : List α) :
    Prop :=
  (∃ r ∈ l, key r = k) ∧ ∀ r ∈ l, key r = k → f r = r

/-- The six location seed rows of `_insert_dimension_data`
(schema.py:235-246): `(location_id, location_name, location_type)`. -/
def locationSeeds : List (ℤ × String × String) :=
  [(1, "Suburb", "Residential"), (2, "Downtown", "Urban"),
   (3, "Rural", "Rural"), (4, "Waterfront", "Premium"),
   (5, "Urban", "Urban"), (6, "Mountain", "Premium")]

/-- `ON CONFLICT (location_id) DO UPDATE SET location_name = ...,
location_type = ...` (keeps `is_active` and `created_at`). -/
def locUpd (sp : ℤ × String × String) (r : DimLocationRow) : DimLocationRow :=
  { r with locationName := sp.2.1, locationType := sp.2.2 }

/-- A freshly inserted location row (`is_active` defaults to `TRUE`,
`created_at` to the current timestamp `now`). -/
def locNew (now : ℕ) (sp : ℤ × String × String) : DimLocationRow :=
  ⟨sp.1, sp.2.1, sp.2.2, true, now⟩

/-- The locations upsert of `_insert_dimension_data`. -/
def insertLocations (now : ℕ) (l : List DimLocationRow) :
    List DimLocationRow :=
  upsertSeeds DimLocationRow.locationId (fun sp => sp.1) locUpd (locNew now)
    locationSeeds l

/-- The four condition seed rows of `_insert_dimension_data`
(schema.py:250-259): `(condition_id, condition_name, condition_score)`. -/
def conditionSeeds : List (ℤ × String × ℤ) :=
  [(1, "Poor", 1), (2, "Fair", 2), (3, "Good", 3), (4, "Excellent", 4)]

/-- `ON CONFLICT (condition_id) DO UPDATE SET condition_name = ...,
condition_score = ...`. -/
def condUpd (sp : ℤ × String × ℤ) (r : DimConditionRow) : DimConditionRow :=
  { r with conditionName := sp.2.1, conditionScore := sp.2.2 }

/-- A freshly inserted condition row. -/
def condNew (now : ℕ) (sp : ℤ × String × ℤ) : DimConditionRow :=
  ⟨sp.1, sp.2.1, sp.2.2, true, now⟩

/-- The conditions upsert of `_insert_dimension_data`. -/
def insertConditions (now : ℕ) (l : List DimConditionRow) :
    List DimConditionRow :=
  upsertSeeds DimConditionRow.conditionId (fun sp => sp.1) condUpd
    (condNew now) conditionSeeds l

/-- The 81 year seed rows of `_insert_dimension_data` (schema.py:262-281):
`for i, year in enumerate(range(1940, 2021))` gives
`(i+1, year, f"{year//10*10}s", "20th" if year < 2000 else "21st")`. -/
def yearSeeds : List (ℤ × ℤ × String × String) :=
  (List.range 81).map (fun (i : ℕ) =>
    ((i : ℤ) + 1, (1940 : ℤ) + (i : ℤ),
     toString (((1940 : ℤ) + (i : ℤ)) / 10 * 10) ++ "s",
     if ((1940 : ℤ) + (i : ℤ)) < 2000 then "20th" else "21st"))

/-- `ON CONFLICT (year_id) DO UPDATE SET year_value = ..., decade = ...,
century = ...`. -/
def yearUpd (sp : ℤ × ℤ × String × String) (r : DimYearRow) : DimYearRow :=
  { r with yearValue := sp.2.1, decade := sp.2.2.1, century := sp.2.2.2 }

/-- A freshly inserted year row. -/
def yearNew (now : ℕ) (sp : ℤ × ℤ × String × String) : DimYearRow :=
  ⟨sp.1, sp.2.1, sp.2.2.1, sp.2.2.2, true, now⟩

/-- The years upsert of `_insert_dimension_data`. -/
def insertYears (now : ℕ) (l : List DimYearRow) : List DimYearRow :=
  upsertSeeds DimYearRow.yearId (fun sp => sp.1) yearUpd (yearNew now)
    yearSeeds l

/-- `_insert_dimension_data` (schema.py:224-287): the three upsert scripts.
It is only ever called right after the DDL (from `create_schema`), when the
three dimension tables are guaranteed to exist, so the `getD []` defaults
are never exercised on a missing table. -/
def insert_dimension_data (now : ℕ) (s : DBState) : DBState :=
  { s with
      dimLocations := some (insertLocations now (s.dimLocations.getD []))
    , dimConditions := some (insertConditions now (s.dimConditions.getD []))
    , dimYears := some (insertYears now (s.dimYears.getD [])) }

/-- `create_schema` (schema.py:155-175): run the DDL script, then seed the
dimensions.  `now` models the session timestamp used for `created_at`
defaults of freshly inserted dimension rows. -/
def create_schema (now : ℕ) (s : DBState) : DBState :=
  insert_dimension_data now (runSchemaDDL s)

/-! ## Raw and fact ingestion (`ingestion.py`) -/

/-- `_ingest_raw_data` (ingestion.py:142-200): `DELETE FROM raw_house_data`
(raises if the table does not exist) then bulk-insert every validated row
with a fresh positional identity `id = 1..N`; `int()` conversions truncate
`sqft`, `bedrooms` and `year_built`. -/
def rawRowsOf (rows : List (ℕ × ValidRow)) : List RawRow :=
  (withPositions 0 rows).map (fun p =>
    ({ id := (p.1 : ℤ) + 1
     , price := p.2.2.price
     , sqft := pyInt p.2.2.sqft
     , bedrooms := pyInt p.2.2.bedrooms
     , bathrooms := p.2.2.bathrooms
     , location := p.2.2.location
     , yearBuilt := pyInt p.2.2.yearBuilt
     , condition := p.2.2.condition } : RawRow))

def ingest_raw_data (rows : List (ℕ × ValidRow)) (s : DBState) :
    Except PyError DBState :=
  match s.rawHouseData with
  | none => .error (.engineError "Table with name raw_house_data does not exist")
  | some _ => .ok { s with rawHouseData := some (rawRowsOf rows) }

/-- `dict(zip(keys, values))` followed by a lookup: on duplicate keys the
last pair wins, as in a Python dict built left to right. -/
def dictLookup {β : Type} [DecidableEq β] (pairs : List (β × ℤ)) (k : β) :
    Option ℤ :=
  (pairs.reverse.find? (fun p => decide (p.1 = k))).map (fun p => p.2)

/-- `_get_location_mapping` (ingestion.py:309-313): `SELECT location_name,
location_id FROM dim_locations WHERE is_active = TRUE`, zipped into a
dict. -/
def locationPairs (ls : List DimLocationRow) : List (String × ℤ) :=
  (ls.filter (fun r => r.isActive)).map (fun r => (r.locationName, r.locationId))

/-- `_get_condition_mapping` (ingestion.py:316-320). -/
def conditionPairs (cs : List DimConditionRow) : List (String × ℤ) :=
  (cs.filter (fun r => r.isActive)).map
    (fun r => (r.conditionName, r.conditionId))

/-- `_get_year_mapping` (ingestion.py:323-327).  The dict keys are the
integer `year_value`s; the pandas `.map` matches them against the float
`year_built` column by numeric equality, so the keys are cast to `ℚ`. -/
def yearPairs (ys : List DimYearRow) : List (ℚ × ℤ) :=
  (ys.filter (fun r => r.isActive)).map
    (fun r => ((r.yearValue : ℚ), r.yearId))

/-- A fact-table candidate row before insertion: the source row, its pandas
index label, the positionally assigned `house_id`, and the three resolved
surrogate keys. -/
structure StagedFactRow where
  label : ℕ
  row : ValidRow
  houseId : ℤ
  locationId : ℤ
  conditionId : ℤ
  yearBuiltId : ℤ
deriving DecidableEq, Repr

/-- Resolution of one row of `df_fact` (ingestion.py:229-243): `house_id` is
`position+1` (`range(1, len+1)`), the three ids come from the mappings, and
the row is dropped (`dropna` on the id columns) when any mapping misses.
The input is `(position, (label, row))`. -/
def resolveStaged (locMap condMap : String → Option ℤ)
    (yearMap : ℚ → Option ℤ) (p : ℕ × (ℕ × ValidRow)) :
    Option StagedFactRow :=
  match locMap p.2.2.location, condMap p.2.2.condition,
      yearMap p.2.2.yearBuilt with
  | some lid, some cid, some yid =>
      some ⟨p.2.1, p.2.2, (p.1 : ℤ) + 1, lid, cid, yid⟩
  | _, _, _ => none

/-- The insert tuple built in the `for i, row in df_fact.iterrows()` loop
(ingestion.py:257-282): `transaction_id = i + 1` where `i` is the row's
pandas index label (the dataframe is filtered, never reindexed, so labels
are the original CSV positions). -/
def mkFactRow (t : StagedFactRow) : FactRow :=
  { transactionId := (t.label : ℤ) + 1
  , houseId := t.houseId
  , locationId := t.locationId
  , conditionId := t.conditionId
  , yearBuiltId := t.yearBuiltId
  , price := t.row.price
  , sqft := pyInt t.row.sqft
  , bedrooms := pyInt t.row.bedrooms
  , bathrooms := t.row.bathrooms }

/-- The surviving rows of `df_fact` after dimension-key resolution
(ingestion.py:228-243). -/
def stagedRows (ls : List DimLocationRow) (cs : List DimConditionRow)
    (ys : List DimYearRow) (rows : List (ℕ × ValidRow)) :
    List StagedFactRow :=
  (withPositions 0 rows).filterMap
    (resolveStaged (dictLookup (locationPairs ls))
      (dictLookup (conditionPairs cs)) (dictLookup (yearPairs ys)))

/-- `_transform_and_load_fact_data` (ingestion.py:203-306): `DELETE FROM
fact_house_transactions` (raises if missing), build the three active-only
dimension mappings (each query raises if its table is missing; the
intermediate cleared-fact state is unobservable on the error path because
the exception propagates out of `ingest_house_data`), resolve every row,
drop rows with a missing mapping, and bulk-insert the remainder. -/
def transform_and_load_fact_data (rows : List (ℕ × ValidRow)) (s : DBState) :
    Except PyError DBState :=
  match s.factHouseTransactions with
  | none =>
      .error (.engineError "Table with name fact_house_transactions does not exist")
  | some _ =>
      match s.dimLocations, s.dimConditions, s.dimYears with
      | some ls, some cs, some ys =>
          .ok { s with
                factHouseTransactions :=
                  some ((stagedRows ls cs ys rows).map mkFactRow) }
      | _, _, _ => .error (.engineError "dimension table does not exist")

/-- `ingest_house_data` (ingestion.py:19-84): create the schema when the raw
table is missing and auto-creation is enabled, then validate the CSV, load
the raw table and transform into the fact table.  The summary-statistics
step only reads views and swallows its own errors, so it does not affect
the state.  On any exception the failure is logged and re-raised
(`Except.error`). -/
def ingest_house_data_steps (currentYear : ℤ) (csv : CsvFile)
    (s0 : DBState) : Except PyError DBState :=
  match load_and_validate_csv currentYear csv with
  | .error e => .error e
  | .ok lr =>
      match ingest_raw_data lr.rows s0 with
      | .error e => .error e
      | .ok s1 =>
          match transform_and_load_fact_data lr.rows s1 with
          | .error e => .error e
          | .ok s2 => .ok s2

def ingest_house_data (now : ℕ) (currentYear : ℤ) (csv : CsvFile)
    (createSchemaIfNotExists : Bool) (s : DBState) : Except PyError DBState :=
  ingest_house_data_steps currentYear csv
    (if createSchemaIfNotExists && s.rawHouseData.isNone then
      create_schema now s else s)

/-! ## Validation (`ingestion.py: validate_ingestion`) -/

/-- The `checks` dict of `validate_ingestion`, with one field per key it can
carry (`none` = key absent from the dict). -/
structure ValidationChecks where
  table_exists_raw_house_data : Option Bool
  table_exists_fact_house_transactions : Option Bool
  table_exists_dim_locations : Option Bool
  table_exists_dim_conditions : Option Bool
  table_exists_dim_years : Option Bool
  data_consistency : Option Bool
  no_orphaned_records : Option Bool
deriving DecidableEq, Repr

/-- An empty `checks` dict. -/
def emptyChecks : ValidationChecks :=
  ⟨none, none, none, none, none, none, none⟩

/-- The dict returned by `validate_ingestion`. -/
structure ValidationResult where
  status : String
  checks : ValidationChecks
  errors : List String
deriving DecidableEq, Repr

/-- `validate_ingestion` (ingestion.py:366-433): record the five
table-existence checks; when raw and fact both exist compare their row
counts (`data_consistency`); then run the orphan left-join query — which
raises when the fact table or any dimension table is missing, in which case
the `except` handler returns a fresh dict with `status: "error"`, empty
checks and the exception text, discarding the accumulated results.
Otherwise `status` is `"failed"` exactly when the errors list is
non-empty. -/
def validate_ingestion (s : DBState) : ValidationResult :=
  let rawE := s.rawHouseData.isSome
  let factE := s.factHouseTransactions.isSome
  let locE := s.dimLocations.isSome
  let condE := s.dimConditions.isSome
  let yearE := s.dimYears.isSome
  let tableErrors : List String :=
    (if rawE then [] else ["Required table raw_house_data does not exist"])
      ++ (if factE then []
          else ["Required table fact_house_transactions does not exist"])
      ++ (if locE then [] else ["Required table dim_locations does not exist"])
      ++ (if condE then []
          else ["Required table dim_conditions does not exist"])
      ++ (if yearE then [] else ["Required table dim_years does not exist"])
  let consistencyCheck : Option Bool :=
    match s.rawHouseData, s.factHouseTransactions with
    | some raw, some fact => some (decide (raw.length = fact.length))
    | _, _ => none
  let consistencyErrors : List String :=
    match s.rawHouseData, s.factHouseTransactions with
    | some raw, some fact =>
        if raw.length = fact.length then []
        else ["Data inconsistency: raw_count=" ++ toString raw.length
                ++ ", fact_count=" ++ toString fact.length]
    | _, _ => []
  match s.factHouseTransactions, s.dimLocations, s.dimConditions,
      s.dimYears with
  | some fact, some ls, some cs, some ys =>
      let orphaned := (fact.filter (fun f =>
        !(ls.any (fun l => decide (l.locationId = f.locationId)))
          || !(cs.any (fun c => decide (c.conditionId = f.conditionId)))
          || !(ys.any (fun y => decide (y.yearId = f.yearBuiltId))))).length
      let errors := tableErrors ++ consistencyErrors
        ++ (if orphaned = 0 then []
            else ["Found " ++ toString orphaned ++ " orphaned records"])
      { status := if errors = [] then "passed" else "failed"
      , checks :=
          { table_exists_raw_house_data := some rawE
          , table_exists_fact_house_transactions := some factE
          , table_exists_dim_locations := some locE
          , table_exists_dim_conditions := some condE
          , table_exists_dim_years := some yearE
          , data_consistency := consistencyCheck
          , no_orphaned_records := some (decide (orphaned = 0)) }
      , errors := errors }
  | _, _, _, _ =>
      { status := "error"
      , checks := emptyChecks
      , errors := ["Catalog Error: table referenced by the orphan check does not exist"] }

/-! ## Concrete scenarios used by witnesses and counterexamples -/

/-- A tiny seeded warehouse: empty raw and fact tables, one active row per
dimension. -/
def wDB : DBState :=
  { rawHouseData := some []
  , dimLocations := some [⟨1, "Suburb", "Residential", true, 0⟩]
  , dimConditions := some [⟨3, "Good", 3, true, 0⟩]
  , dimYears := some [⟨61, 2000, "2000s", "21st", true, 0⟩]
  , factHouseTransactions := some []
  , views := [] }

/-- A validated row whose business keys all resolve in `wDB`. -/
def vGood : ValidRow := ⟨300000, 1500, 3, 2, 2000, "Suburb", "Good"⟩

/-- A validated row whose location has no dimension entry in `wDB`. -/
def vNowhere : ValidRow := ⟨250000, 1200, 2, 1, 2000, "Nowhere", "Good"⟩

/-- Validated rows for a two-row ingestion where the first row's location is
unmapped. -/
def wRows1 : List (ℕ × ValidRow) := [(0, vNowhere), (1, vGood)]

/-- The raw table produced from `wRows1`. -/
def wRaw1 : List RawRow :=
  [⟨1, 250000, 1200, 2, 1, "Nowhere", 2000, "Good"⟩,
   ⟨2, 300000, 1500, 3, 2, "Suburb", 2000, "Good"⟩]

/-- `wDB` after raw ingestion of `wRows1`. -/
def wS1 : DBState := { wDB with rawHouseData := some wRaw1 }

/-- The fact rows produced from `wRows1` against `wDB`'s dimensions: only the
second source row survives, keeping `transaction_id = 2`. -/
def wFact1 : List FactRow := [⟨2, 2, 1, 3, 61, 300000, 1500, 3, 2⟩]

/-- `wS1` after the fact transformation. -/
def wS2 : DBState := { wS1 with factHouseTransactions := some wFact1 }

/-- `wDB` after running only the fact transformation on `wRows1`. -/
def wS2c7 : DBState := { wDB with factHouseTransactions := some wFact1 }

/-- A fully valid CSV row with `year_built = 1900`. -/
def wRow1900 : CsvRow :=
  ⟨.num 300000, .num 1500, .num 3, .num 2, .num 1900, some "Suburb",
   some "Good"⟩

/-- A CSV row valid except for `year_built = 1899`. -/
def wRow1899 : CsvRow :=
  ⟨.num 300000, .num 1500, .num 3, .num 2, .num 1899, some "Suburb",
   some "Good"⟩

/-- A CSV row valid except for `price = 0`. -/
def wRowPrice0 : CsvRow :=
  ⟨.num 0, .num 1500, .num 3, .num 2, .num 2000, some "Suburb", some "Good"⟩

/-- A CSV row with a missing price cell (NaN after coercion). -/
def wRowNaN : CsvRow :=
  ⟨.missing, .num 1500, .num 3, .num 2, .num 2000, some "Suburb", some "Good"⟩

/-- The validated form of `wRow1900`. -/
def v1900 : ValidRow := ⟨300000, 1500, 3, 2, 1900, "Suburb", "Good"⟩

/-- The validated form of `wRow1899` (which the range filter drops). -/
def v1899 : ValidRow := ⟨300000, 1500, 3, 2, 1899, "Suburb", "Good"⟩

/-- A four-row CSV exercising both drop stages and both year boundaries. -/
def wCsv3 : CsvFile :=
  ⟨required_columns, [wRow1900, wRow1899, wRowPrice0, wRowNaN]⟩

/-- The load result for `wCsv3` at current year 2026: one retained row, one
coercion drop, two range drops. -/
def wLr3 : LoadResult := ⟨[(0, v1900)], 1, 2⟩

/-- A fully valid CSV row with `year_built = 1925` (inside the CSV range
filter but outside the seeded `dim_years` range). -/
def wRow1925 : CsvRow :=
  ⟨.num 250000, .num 1200, .num 2, .num 1, .num 1925, some "Suburb",
   some "Good"⟩

/-- The validated form of `wRow1925`. -/
def v1925 : ValidRow := ⟨250000, 1200, 2, 1, 1925, "Suburb", "Good"⟩

/-- A one-row CSV whose only row has `year_built = 1925`. -/
def wCsv5 : CsvFile := ⟨required_columns, [wRow1925]⟩

/-- The load result for `wCsv5` at current year 2026. -/
def wLr5 : LoadResult := ⟨[(0, v1925)], 0, 0⟩

/-- A CSV row that resolves against all of `wDB`'s dimensions. -/
def wRowGood : CsvRow :=
  ⟨.num 300000, .num 1500, .num 3, .num 2, .num 2000, some "Suburb",
   some "Good"⟩

/-- A one-row CSV fully mappable against `wDB`. -/
def wCsv2 : CsvFile := ⟨required_columns, [wRowGood]⟩

/-- The state produced by a full `ingest_house_data` run of `wCsv2` against
`wDB`. -/
def wS2c2 : DBState :=
  { wDB with
      rawHouseData := some [⟨1, 300000, 1500, 3, 2, "Suburb", 2000, "Good"⟩]
    , factHouseTransactions := some [⟨1, 1, 1, 3, 61, 300000, 1500, 3, 2⟩] }

/-- A warehouse with the raw table present but the fact and dimension tables
missing, so the orphan query of `validate_ingestion` raises. -/
def sBad : DBState :=
  { rawHouseData := some []
  , dimLocations := none
  , dimConditions := none
  , dimYears := none
  , factHouseTransactions := none
  , views := [] }

/-! ## Helper lemmas: labelled lists -/

theorem withPositions_length {β : Type} (n : ℕ) (l : List β) :
    (withPositions n l).length = l.length := by
  induction l generalizing n with
  | nil => rfl
  | cons b rest ih => simp [withPositions, ih]

theorem mem_withPositions {β : Type} {n : ℕ} {l : List β} {p : ℕ × β} :
    p ∈ withPositions n l ↔ n ≤ p.1 ∧ l.get? (p.1 - n) = some p.2 := by
  induction l generalizing n with
  | nil => simp [withPositions]
  | cons b rest ih =>
    simp only [withPositions, List.mem_cons, ih]
    constructor
    · rintro (rfl | ⟨h1, h2⟩)
      · simp
      · refine ⟨by omega, ?_⟩
        have : p.1 - n = (p.1 - (n + 1)) + 1 := by omega
        rw [this]
        simpa using h2
    · rintro ⟨h1, h2⟩
      rcases Nat.eq_or_lt_of_le h1 with h | h
      · left
        rw [← h] at h2
        simp at h2
        exact Prod.ext (by omega) h2.symm
      · right
        refine ⟨h, ?_⟩
        have heq : p.1 - n = (p.1 - (n + 1)) + 1 := by omega
        rw [heq] at h2
        simpa using h2

theorem mem_withPositions_fst_ge {β : Type} {n : ℕ} {l : List β} {p : ℕ × β}
    (h : p ∈ withPositions n l) : n ≤ p.1 :=
  (mem_withPositions.1 h).1

theorem snd_mem_of_mem_withPositions {β : Type} {n : ℕ} {l : List β}
    {p : ℕ × β} (h : p ∈ withPositions n l) : p.2 ∈ l := by
  induction l generalizing n with
  | nil => simp [withPositions] at h
  | cons b rest ih =>
    rcases List.mem_cons.1 h with rfl | h
    · simp
    · exact List.mem_cons_of_mem _ (ih h)

theorem withPositions_fst_nodup {β : Type} (n : ℕ) (l : List β) :
    ((withPositions n l).map Prod.fst).Nodup := by
  induction l generalizing n with
  | nil => simp [withPositions]
  | cons b rest ih =>
    simp only [withPositions, List.map_cons, List.nodup_cons]
    refine ⟨?_, ih (n + 1)⟩
    intro hmem
    obtain ⟨p, hp, hfst⟩ := List.mem_map.1 hmem
    have := mem_withPositions_fst_ge hp
    omega

theorem exists_withPositions_of_mem {β : Type} {l : List β} {b : β} (n : ℕ)
    (h : b ∈ l) : ∃ k, (k, b) ∈ withPositions n l := by
  induction l generalizing n with
  | nil => simp at h
  | cons a rest ih =>
    rcases List.mem_cons.1 h with rfl | h
    · exact ⟨n, by simp [withPositions]⟩
    · obtain ⟨k, hk⟩ := ih (n + 1) h
      exact ⟨k, by simp [withPositions, hk]⟩

/-- If a label-preserving partial function is applied to a labelled list, the
surviving labels form a sublist of the original labels. -/
theorem map_fst_filterMap_sublist {β γ : Type} (g : ℕ × β → Option (ℕ × γ))
    (hg : ∀ p q, g p = some q → q.1 = p.1) (l : List (ℕ × β)) :
    ((l.filterMap g).map Prod.fst).Sublist (l.map Prod.fst) := by
  induction l with
  | nil => simp
  | cons p rest ih =>
    rw [List.filterMap_cons]
    cases hgp : g p with
    | none => simpa using ih.cons p.1
    | some q =>
      simp only [List.map_cons]
      rw [hg p q hgp]
      exact ih.cons₂ p.1

/-- In a list of labelled values with pairwise distinct labels, a label
determines the value. -/
theorem nodup_fst_functional {β : Type} {l : List (ℕ × β)} {i : ℕ} {a b : β}
    (hnd : (l.map Prod.fst).Nodup) (ha : (i, a) ∈ l) (hb : (i, b) ∈ l) :
    a = b := by
  induction l with
  | nil => simp at ha
  | cons p rest ih =>
    simp only [List.map_cons, List.nodup_cons] at hnd
    rcases List.mem_cons.1 ha with ha1 | ha1
    · rcases List.mem_cons.1 hb with hb1 | hb1
      · have h := ha1.trans hb1.symm
        injection h
      · exfalso
        apply hnd.1
        have hm : i ∈ rest.map Prod.fst := List.mem_map.2 ⟨(i, b), hb1, rfl⟩
        rw [← ha1]
        exact hm
    · rcases List.mem_cons.1 hb with hb1 | hb1
      · exfalso
        apply hnd.1
        have hm : i ∈ rest.map Prod.fst := List.mem_map.2 ⟨(i, a), ha1, rfl⟩
        rw [← hb1]
        exact hm
      · exact ih hnd.2 ha1 hb1

/-! ## Helper lemmas: CSV load pipeline -/

theorem keptRows_eq (f : CsvFile) :
    keptRows f = (withPositions 0 f.rows).filterMap
      (fun p => (dropnaRow (coerceRow p.2)).map (fun v => (p.1, v))) := by
  unfold keptRows coercedRows
  rw [List.filterMap_map]
  rfl

theorem mem_keptRows {f : CsvFile} {i : ℕ} {v : ValidRow} :
    (i, v) ∈ keptRows f
      ↔ ∃ r, f.rows.get? i = some r ∧ dropnaRow (coerceRow r) = some v := by
  rw [keptRows_eq, List.mem_filterMap]
  constructor
  · rintro ⟨p, hp, hg⟩
    rcases hdn : dropnaRow (coerceRow p.2) with _ | v2 <;> rw [hdn] at hg
    · simp at hg
    · simp only [Option.map_some', Option.some.injEq, Prod.mk.injEq] at hg
      obtain ⟨hg1, hg2⟩ := hg
      obtain ⟨_, hget⟩ := mem_withPositions.1 hp
      rw [Nat.sub_zero] at hget
      rw [← hg1]
      exact ⟨p.2, hget, by rw [hdn, hg2]⟩
  · rintro ⟨r, hget, hdn⟩
    refine ⟨(i, r),
      mem_withPositions.2 ⟨Nat.zero_le i, by simpa using hget⟩, ?_⟩
    show (dropnaRow (coerceRow r)).map (fun v2 => (i, v2)) = some (i, v)
    rw [hdn]
    rfl

theorem mem_finalRows {currentYear : ℤ} {f : CsvFile} {i : ℕ}
    {v : ValidRow} :
    (i, v) ∈ finalRows currentYear f
      ↔ (∃ r, f.rows.get? i = some r ∧ dropnaRow (coerceRow r) = some v)
          ∧ rangeOk currentYear v = true := by
  unfold finalRows
  rw [List.mem_filter]
  rw [mem_keptRows]

theorem keptRows_fst_nodup (f : CsvFile) :
    ((keptRows f).map Prod.fst).Nodup := by
  rw [keptRows_eq]
  have hg : ∀ (p : ℕ × CsvRow) (q : ℕ × ValidRow),
      (dropnaRow (coerceRow p.2)).map (fun v => (p.1, v)) = some q →
        q.1 = p.1 := by
    intro p q hgq
    rw [Option.map_eq_some'] at hgq
    obtain ⟨a, _, heq⟩ := hgq
    rw [← heq]
  exact (map_fst_filterMap_sublist _ hg (withPositions 0 f.rows)).nodup
    (withPositions_fst_nodup 0 f.rows)

theorem finalRows_fst_nodup (currentYear : ℤ) (f : CsvFile) :
    ((finalRows currentYear f).map Prod.fst).Nodup := by
  have hsub : ((finalRows currentYear f).map Prod.fst).Sublist
      ((keptRows f).map Prod.fst) :=
    (List.filter_sublist (keptRows f)).map Prod.fst
  exact hsub.nodup (keptRows_fst_nodup f)

theorem load_and_validate_ok {currentYear : ℤ} {f : CsvFile}
    {lr : LoadResult} (h : load_and_validate_csv currentYear f = .ok lr) :
    lr = { rows := finalRows currentYear f
         , coercionDropped := (coercedRows f).length - (keptRows f).length
         , rangeDropped :=
             (keptRows f).length - (finalRows currentYear f).length } := by
  unfold load_and_validate_csv at h
  split at h
  · simp only [Except.ok.injEq] at h
    exact h.symm
  · exact absurd h (by simp)

theorem keptRows_length_aux (n : ℕ) (l : List CsvRow) :
    ((withPositions n l).filterMap
        (fun p => (dropnaRow (coerceRow p.2)).map (fun v => (p.1, v)))).length
      = (l.filter (fun r => (dropnaRow (coerceRow r)).isSome)).length := by
  induction l generalizing n with
  | nil => rfl
  | cons r rest ih =>
    rcases hdn : dropnaRow (coerceRow r) with _ | v2 <;>
      simp [withPositions, List.filterMap_cons, List.filter_cons, hdn,
        ih (n + 1)]

theorem keptRows_length (f : CsvFile) :
    (keptRows f).length
      = (f.rows.filter (fun r => (dropnaRow (coerceRow r)).isSome)).length := by
  rw [keptRows_eq]
  exact keptRows_length_aux 0 f.rows

theorem coercedRows_length (f : CsvFile) :
    (coercedRows f).length = f.rows.length := by
  unfold coercedRows
  rw [List.length_map, withPositions_length]

theorem length_filter_not {α : Type} (p : α → Bool) (l : List α) :
    l.length - (l.filter p).length = (l.filter (fun a => !(p a))).length := by
  induction l with
  | nil => rfl
  | cons a rest ih =>
    have hle := List.length_filter_le p rest
    cases hp : p a <;> simp [List.filter_cons, hp] <;> omega

theorem keptRows_snd_aux (n : ℕ) (l : List CsvRow) :
    ((withPositions n l).filterMap
        (fun p => (dropnaRow (coerceRow p.2)).map (fun v => (p.1, v)))).map
          Prod.snd
      = l.filterMap (fun r => dropnaRow (coerceRow r)) := by
  induction l generalizing n with
  | nil => rfl
  | cons r rest ih =>
    rcases hdn : dropnaRow (coerceRow r) with _ | v2 <;>
      simp [withPositions, List.filterMap_cons, hdn, ih (n + 1)]

theorem keptRows_snd (f : CsvFile) :
    (keptRows f).map Prod.snd
      = f.rows.filterMap (fun r => dropnaRow (coerceRow r)) := by
  rw [keptRows_eq]
  exact keptRows_snd_aux 0 f.rows

theorem filter_snd_length {β : Type} (q : β → Bool) (l : List (ℕ × β)) :
    (l.filter (fun p => q p.2)).length
      = ((l.map Prod.snd).filter q).length := by
  induction l with
  | nil => rfl
  | cons p rest ih =>
    cases hq : q p.2 <;> simp [List.filter_cons, hq, ih]

/-! ## Helper lemmas: upsert-by-surrogate-key -/

theorem list_map_id_of {α : Type} {f : α → α} (l : List α)
    (h : ∀ a ∈ l, f a = a) : l.map f = l := by
  induction l with
  | nil => rfl
  | cons a rest ih =>
    rw [List.map_cons, h a (List.mem_cons_self a rest),
      ih (fun b hb => h b (List.mem_cons_of_mem a hb))]

theorem upsertSeeds_cons {α σ : Type} (key : α → ℤ) (sKey : σ → ℤ)
    (upd : σ → α → α) (mkNew : σ → α) (s : σ) (rest : List σ) (l : List α) :
    upsertSeeds key sKey upd mkNew (s :: rest) l
      = upsertSeeds key sKey upd mkNew rest
          (upsertOne key (sKey s) (upd s) (mkNew s) l) := rfl

theorem keyFixed_upsertOne_self {α : Type} (key : α → ℤ) (k : ℤ)
    (upd : α → α) (new : α) (hknew : key new = k)
    (hkeep : ∀ r, key (upd r) = key r) (hidem : ∀ r, upd (upd r) = upd r)
    (hnew : upd new = new) (l : List α) :
    KeyFixed key k upd (upsertOne key k upd new l) := by
  unfold upsertOne KeyFixed
  by_cases hany : l.any (fun r => decide (key r = k)) = true
  · rw [if_pos hany]
    obtain ⟨r, hr, hrk⟩ : ∃ r ∈ l, key r = k := by simpa using hany
    constructor
    · exact ⟨upd r, List.mem_map.2 ⟨r, hr, by rw [if_pos hrk]⟩,
        by rw [hkeep, hrk]⟩
    · intro x hx hxk
      obtain ⟨r2, hr2, hre⟩ := List.mem_map.1 hx
      by_cases hk2 : key r2 = k
      · rw [if_pos hk2] at hre
        rw [← hre]
        exact hidem r2
      · rw [if_neg hk2] at hre
        rw [← hre] at hxk
        exact absurd hxk hk2
  · rw [if_neg hany]
    have hnone : ∀ r ∈ l, ¬ key r = k := by simpa using hany
    constructor
    · exact ⟨new, by simp, hknew⟩
    · intro x hx hxk
      rcases List.mem_append.1 hx with h | h
      · exact absurd hxk (hnone x h)
      · rw [List.mem_singleton.1 h]
        exact hnew

theorem keyFixed_upsertOne_of_ne {α : Type} (key : α → ℤ) {k k2 : ℤ}
    (upd upd2 : α → α) (new2 : α) (hne : k2 ≠ k) (hknew2 : key new2 = k2)
    (hkeep2 : ∀ r, key (upd2 r) = key r) {l : List α}
    (hf : KeyFixed key k upd l) :
    KeyFixed key k upd (upsertOne key k2 upd2 new2 l) := by
  obtain ⟨⟨r, hr, hrk⟩, hfix⟩ := hf
  unfold upsertOne
  by_cases hany : l.any (fun x => decide (key x = k2)) = true
  · rw [if_pos hany]
    constructor
    · have hrne : ¬ key r = k2 := fun h => hne (h.symm.trans hrk)
      exact ⟨r, List.mem_map.2 ⟨r, hr, by rw [if_neg hrne]⟩, hrk⟩
    · intro x hx hxk
      obtain ⟨r2, hr2, hre⟩ := List.mem_map.1 hx
      by_cases hk2 : key r2 = k2
      · rw [if_pos hk2] at hre
        rw [← hre, hkeep2] at hxk
        exact absurd (hk2.symm.trans hxk) hne
      · rw [if_neg hk2] at hre
        rw [← hre] at hxk ⊢
        exact hfix r2 hr2 hxk
  · rw [if_neg hany]
    constructor
    · exact ⟨r, List.mem_append_left _ hr, hrk⟩
    · intro x hx hxk
      rcases List.mem_append.1 hx with h | h
      · exact hfix x h hxk
      · rw [List.mem_singleton.1 h] at hxk ⊢
        exact absurd (hknew2.symm.trans hxk) hne

theorem upsertOne_eq_of_keyFixed {α : Type} (key : α → ℤ) (k : ℤ)
    (upd : α → α) (new : α) {l : List α} (hf : KeyFixed key k upd l) :
    upsertOne key k upd new l = l := by
  obtain ⟨⟨r, hr, hrk⟩, hfix⟩ := hf
  unfold upsertOne
  rw [if_pos (List.any_eq_true.2 ⟨r, hr, by simpa using hrk⟩)]
  apply list_map_id_of
  intro a ha
  by_cases hk : key a = k
  · rw [if_pos hk]
    exact hfix a ha hk
  · rw [if_neg hk]

theorem keyFixed_upsertSeeds_of_ne {α σ : Type} (key : α → ℤ) (sKey : σ → ℤ)
    (upd : σ → α → α) (mkNew : σ → α) {k : ℤ} (updk : α → α)
    (seeds : List σ) (hknew : ∀ sp, key (mkNew sp) = sKey sp)
    (hkeep : ∀ sp r, key (upd sp r) = key r)
    (hall : ∀ sp ∈ seeds, sKey sp ≠ k) {l : List α}
    (hf : KeyFixed key k updk l) :
    KeyFixed key k updk (upsertSeeds key sKey upd mkNew seeds l) := by
  induction seeds generalizing l with
  | nil => exact hf
  | cons s rest ih =>
    rw [upsertSeeds_cons]
    exact ih (fun sp hsp => hall sp (List.mem_cons_of_mem s hsp))
      (keyFixed_upsertOne_of_ne key updk (upd s) (mkNew s)
        (hall s (List.mem_cons_self s rest)) (hknew s) (hkeep s) hf)

theorem all_keyFixed_upsertSeeds {α σ : Type} (key : α → ℤ) (sKey : σ → ℤ)
    (upd : σ → α → α) (mkNew : σ → α) (seeds : List σ)
    (hknew : ∀ sp, key (mkNew sp) = sKey sp)
    (hkeep : ∀ sp r, key (upd sp r) = key r)
    (hidem : ∀ sp r, upd sp (upd sp r) = upd sp r)
    (hnewfix : ∀ sp, upd sp (mkNew sp) = mkNew sp)
    (hnd : (seeds.map sKey).Nodup) (l : List α) :
    ∀ sp ∈ seeds,
      KeyFixed key (sKey sp) (upd sp)
        (upsertSeeds key sKey upd mkNew seeds l) := by
  induction seeds generalizing l with
  | nil => simp
  | cons s rest ih =>
    simp only [List.map_cons, List.nodup_cons] at hnd
    intro sp hsp
    rw [upsertSeeds_cons]
    rcases List.mem_cons.1 hsp with rfl | hsp2
    · refine keyFixed_upsertSeeds_of_ne key sKey upd mkNew (upd sp) rest
        hknew hkeep ?_ ?_
      · intro m hm heq
        exact hnd.1 (by rw [← heq]; exact List.mem_map.2 ⟨m, hm, rfl⟩)
      · exact keyFixed_upsertOne_self key (sKey sp) (upd sp) (mkNew sp)
          (hknew sp) (hkeep sp) (hidem sp) (hnewfix sp) l
    · exact ih hnd.2 _ sp hsp2

theorem upsertSeeds_eq_of_all_fixed {α σ : Type} (key : α → ℤ)
    (sKey : σ → ℤ) (upd : σ → α → α) (mkNew : σ → α) (seeds : List σ)
    {l : List α} (h : ∀ sp ∈ seeds, KeyFixed key (sKey sp) (upd sp) l) :
    upsertSeeds key sKey upd mkNew seeds l = l := by
  induction seeds with
  | nil => rfl
  | cons s rest ih =>
    rw [upsertSeeds_cons,
      upsertOne_eq_of_keyFixed key _ _ _ (h s (List.mem_cons_self s rest))]
    exact ih (fun sp hsp => h sp (List.mem_cons_of_mem s hsp))

/-- A reseeding run with the same seed payloads (possibly a different
`created_at` timestamp for would-be inserts) is a no-op: upsert-by-key is
idempotent when the seed keys are pairwise distinct. -/
theorem upsertSeeds_idem {α σ : Type} (key : α → ℤ) (sKey : σ → ℤ)
    (upd : σ → α → α) (mkNew mkNew2 : σ → α) (seeds : List σ)
    (hknew : ∀ sp, key (mkNew sp) = sKey sp)
    (hkeep : ∀ sp r, key (upd sp r) = key r)
    (hidem : ∀ sp r, upd sp (upd sp r) = upd sp r)
    (hnewfix : ∀ sp, upd sp (mkNew sp) = mkNew sp)
    (hnd : (seeds.map sKey).Nodup) (l : List α) :
    upsertSeeds key sKey upd mkNew2 seeds
        (upsertSeeds key sKey upd mkNew seeds l)
      = upsertSeeds key sKey upd mkNew seeds l :=
  upsertSeeds_eq_of_all_fixed key sKey upd mkNew2 seeds
    (all_keyFixed_upsertSeeds key sKey upd mkNew seeds hknew hkeep hidem
      hnewfix hnd l)

/-- Seeding a table that shares no key with the seeds appends exactly the
freshly built seed rows, in order. -/
theorem upsertSeeds_of_disjoint {α σ : Type} (key : α → ℤ) (sKey : σ → ℤ)
    (upd : σ → α → α) (mkNew : σ → α)
    (hknew : ∀ sp, key (mkNew sp) = sKey sp) :
    ∀ (seeds : List σ) (l : List α), (seeds.map sKey).Nodup →
      (∀ r ∈ l, ∀ sp ∈ seeds, key r ≠ sKey sp) →
      upsertSeeds key sKey upd mkNew seeds l = l ++ seeds.map mkNew := by
  intro seeds
  induction seeds with
  | nil =>
    intro l _ _
    simp [upsertSeeds]
  | cons s rest ih =>
    intro l hnd hd
    simp only [List.map_cons, List.nodup_cons] at hnd
    rw [upsertSeeds_cons]
    have hany : ¬ (l.any (fun r => decide (key r = sKey s)) = true) := by
      simp only [List.any_eq_true, decide_eq_true_eq, not_exists]
      intro r
      simp only [not_and]
      exact fun hr => hd r hr s (List.mem_cons_self s rest)
    have hd2 : ∀ r ∈ l ++ [mkNew s], ∀ sp ∈ rest, key r ≠ sKey sp := by
      intro r hr sp hsp
      rcases List.mem_append.1 hr with h | h
      · exact hd r h sp (List.mem_cons_of_mem s hsp)
      · rw [List.mem_singleton.1 h, hknew s]
        exact fun heq =>
          hnd.1 (by rw [heq]; exact List.mem_map.2 ⟨sp, hsp, rfl⟩)
    rw [upsertOne, if_neg hany, ih (l ++ [mkNew s]) hnd.2 hd2]
    simp

/-! ## Helper lemmas: views and dimension seeding -/

theorem mem_addView {vs : List String} {v w : String} :
    w ∈ addView vs v ↔ w ∈ vs ∨ w = v := by
  by_cases h : v ∈ vs
  · rw [addView, if_pos h]
    constructor
    · exact Or.inl
    · rintro (h1 | rfl)
      · exact h1
      · exact h
  · rw [addView, if_neg h]
    simp

theorem addView_eq_of_mem {vs : List String} {v : String} (h : v ∈ vs) :
    addView vs v = vs := by
  rw [addView, if_pos h]

theorem mem_foldl_addView_of_mem (names : List String) :
    ∀ (vs : List String) (w : String), w ∈ vs → w ∈ names.foldl addView vs := by
  induction names with
  | nil => exact fun vs w h => h
  | cons n rest ih =>
    intro vs w h
    rw [List.foldl_cons]
    exact ih _ w (mem_addView.2 (Or.inl h))

theorem names_mem_foldl_addView (names : List String) :
    ∀ (vs : List String), ∀ v ∈ names, v ∈ names.foldl addView vs := by
  induction names with
  | nil => simp
  | cons n rest ih =>
    intro vs v hv
    rw [List.foldl_cons]
    rcases List.mem_cons.1 hv with rfl | hv
    · exact mem_foldl_addView_of_mem rest _ _ (mem_addView.2 (Or.inr rfl))
    · exact ih _ v hv

theorem foldl_addView_eq_of_subset (names : List String) :
    ∀ (vs : List String), (∀ v ∈ names, v ∈ vs) →
      names.foldl addView vs = vs := by
  induction names with
  | nil => exact fun vs _ => rfl
  | cons n rest ih =>
    intro vs h
    rw [List.foldl_cons, addView_eq_of_mem (h n (List.mem_cons_self n rest))]
    exact ih vs (fun v hv => h v (List.mem_cons_of_mem n hv))

theorem addViews_idem (vs : List String) :
    addViews (addViews vs) = addViews vs :=
  foldl_addView_eq_of_subset viewNames _
    (fun v hv => names_mem_foldl_addView viewNames vs v hv)

theorem locationSeeds_fst_nodup :
    (locationSeeds.map (fun sp => sp.1)).Nodup := by decide

theorem conditionSeeds_fst_nodup :
    (conditionSeeds.map (fun sp => sp.1)).Nodup := by decide

theorem yearSeeds_map_fst :
    yearSeeds.map (fun sp => sp.1)
      = (List.range 81).map (fun (i : ℕ) => (i : ℤ) + 1) := by
  simp [yearSeeds, List.map_map, Function.comp]

theorem yearSeeds_fst_nodup : (yearSeeds.map (fun sp => sp.1)).Nodup := by
  rw [yearSeeds_map_fst]
  have hinj : Function.Injective (fun (i : ℕ) => (i : ℤ) + 1) := by
    intro a b h
    simpa using h
  exact (List.nodup_range 81).map hinj

theorem insertLocations_idem (now now2 : ℕ) (l : List DimLocationRow) :
    insertLocations now2 (insertLocations now l) = insertLocations now l := by
  unfold insertLocations
  apply upsertSeeds_idem
  · exact fun _ => rfl
  · exact fun _ _ => rfl
  · exact fun _ _ => rfl
  · exact fun _ => rfl
  · exact locationSeeds_fst_nodup

theorem insertConditions_idem (now now2 : ℕ) (l : List DimConditionRow) :
    insertConditions now2 (insertConditions now l) = insertConditions now l := by
  unfold insertConditions
  apply upsertSeeds_idem
  · exact fun _ => rfl
  · exact fun _ _ => rfl
  · exact fun _ _ => rfl
  · exact fun _ => rfl
  · exact conditionSeeds_fst_nodup

theorem insertYears_idem (now now2 : ℕ) (l : List DimYearRow) :
    insertYears now2 (insertYears now l) = insertYears now l := by
  unfold insertYears
  apply upsertSeeds_idem
  · exact fun _ => rfl
  · exact fun _ _ => rfl
  · exact fun _ _ => rfl
  · exact fun _ => rfl
  · exact yearSeeds_fst_nodup

theorem insertLocations_empty (now : ℕ) :
    insertLocations now [] = locationSeeds.map (locNew now) := by
  unfold insertLocations
  have h := upsertSeeds_of_disjoint DimLocationRow.locationId (fun sp => sp.1)
    locUpd (locNew now) (fun _ => rfl) locationSeeds []
    locationSeeds_fst_nodup (fun r hr => absurd hr (List.not_mem_nil r))
  simpa using h

theorem insertConditions_empty (now : ℕ) :
    insertConditions now [] = conditionSeeds.map (condNew now) := by
  unfold insertConditions
  have h := upsertSeeds_of_disjoint DimConditionRow.conditionId (fun sp => sp.1)
    condUpd (condNew now) (fun _ => rfl) conditionSeeds []
    conditionSeeds_fst_nodup (fun r hr => absurd hr (List.not_mem_nil r))
  simpa using h

theorem insertYears_empty (now : ℕ) :
    insertYears now [] = yearSeeds.map (yearNew now) := by
  unfold insertYears
  have h := upsertSeeds_of_disjoint DimYearRow.yearId (fun sp => sp.1) yearUpd
    (yearNew now) (fun _ => rfl) yearSeeds []
    yearSeeds_fst_nodup (fun r hr => absurd hr (List.not_mem_nil r))
  simpa using h

/-! ## Helper lemmas: fact transformation and ingestion pipeline -/

theorem dictLookup_mem {β : Type} [DecidableEq β] {pairs : List (β × ℤ)}
    {k : β} {v : ℤ} (h : dictLookup pairs k = some v) : (k, v) ∈ pairs := by
  unfold dictLookup at h
  rcases hf : pairs.reverse.find? (fun p => decide (p.1 = k)) with _ | p <;>
    rw [hf] at h
  · simp at h
  · simp only [Option.map_some', Option.some.injEq] at h
    have hp := List.mem_of_find?_eq_some hf
    have hpk := List.find?_some hf
    rw [List.mem_reverse] at hp
    simp only [decide_eq_true_eq] at hpk
    have hpe : p = (k, v) := Prod.ext hpk h
    rw [← hpe]
    exact hp

theorem dictLookup_eq_none {β : Type} [DecidableEq β] {pairs : List (β × ℤ)}
    {k : β} : dictLookup pairs k = none ↔ ∀ p ∈ pairs, p.1 ≠ k := by
  unfold dictLookup
  rw [Option.map_eq_none', List.find?_eq_none]
  constructor
  · intro h p hp
    have := h p (List.mem_reverse.2 hp)
    simpa using this
  · intro h p hp
    have := h p (List.mem_reverse.1 hp)
    simpa using this

theorem locationPairs_mem {ls : List DimLocationRow} {name : String}
    {id : ℤ} (h : (name, id) ∈ locationPairs ls) :
    ∃ l ∈ ls, l.isActive = true ∧ l.locationName = name
      ∧ l.locationId = id := by
  unfold locationPairs at h
  obtain ⟨r, hr, heq⟩ := List.mem_map.1 h
  have hf := List.mem_filter.1 hr
  injection heq with h1 h2
  exact ⟨r, hf.1, hf.2, h1, h2⟩

theorem conditionPairs_mem {cs : List DimConditionRow} {name : String}
    {id : ℤ} (h : (name, id) ∈ conditionPairs cs) :
    ∃ c ∈ cs, c.isActive = true ∧ c.conditionName = name
      ∧ c.conditionId = id := by
  unfold conditionPairs at h
  obtain ⟨r, hr, heq⟩ := List.mem_map.1 h
  have hf := List.mem_filter.1 hr
  injection heq with h1 h2
  exact ⟨r, hf.1, hf.2, h1, h2⟩

theorem yearPairs_mem {ys : List DimYearRow} {q : ℚ} {id : ℤ}
    (h : (q, id) ∈ yearPairs ys) :
    ∃ y ∈ ys, y.isActive = true ∧ (y.yearValue : ℚ) = q
      ∧ y.yearId = id := by
  unfold yearPairs at h
  obtain ⟨r, hr, heq⟩ := List.mem_map.1 h
  have hf := List.mem_filter.1 hr
  injection heq with h1 h2
  exact ⟨r, hf.1, hf.2, h1, h2⟩

theorem stagedRows_resolved {ls : List DimLocationRow}
    {cs : List DimConditionRow} {ys : List DimYearRow}
    {rows : List (ℕ × ValidRow)} {t : StagedFactRow}
    (h : t ∈ stagedRows ls cs ys rows) :
    dictLookup (locationPairs ls) t.row.location = some t.locationId
    ∧ dictLookup (conditionPairs cs) t.row.condition = some t.conditionId
    ∧ dictLookup (yearPairs ys) t.row.yearBuilt = some t.yearBuiltId
    ∧ (t.label, t.row) ∈ rows := by
  unfold stagedRows at h
  obtain ⟨p, hp, hres⟩ := List.mem_filterMap.1 h
  unfold resolveStaged at hres
  rcases hloc : dictLookup (locationPairs ls) p.2.2.location with _ | lid <;>
    rw [hloc] at hres
  · simp at hres
  rcases hcond : dictLookup (conditionPairs cs) p.2.2.condition
      with _ | cid <;> rw [hcond] at hres
  · simp at hres
  rcases hyear : dictLookup (yearPairs ys) p.2.2.yearBuilt with _ | yid <;>
    rw [hyear] at hres
  · simp at hres
  simp only [Option.some.injEq] at hres
  subst hres
  exact ⟨hloc, hcond, hyear, snd_mem_of_mem_withPositions hp⟩

theorem fact_label_resolvable {ls : List DimLocationRow}
    {cs : List DimConditionRow} {ys : List DimYearRow}
    {rows : List (ℕ × ValidRow)} {fr : FactRow}
    (h : fr ∈ (stagedRows ls cs ys rows).map mkFactRow) :
    ∃ (j : ℕ) (v2 : ValidRow), fr.transactionId = (j : ℤ) + 1
      ∧ (j, v2) ∈ rows
      ∧ (dictLookup (locationPairs ls) v2.location).isSome = true
      ∧ (dictLookup (conditionPairs cs) v2.condition).isSome = true
      ∧ (dictLookup (yearPairs ys) v2.yearBuilt).isSome = true := by
  obtain ⟨t, ht, rfl⟩ := List.mem_map.1 h
  obtain ⟨hl, hc, hy, hm⟩ := stagedRows_resolved ht
  exact ⟨t.label, t.row, rfl, hm, by rw [hl]; rfl, by rw [hc]; rfl,
    by rw [hy]; rfl⟩

theorem fact_refs_active {ls : List DimLocationRow}
    {cs : List DimConditionRow} {ys : List DimYearRow}
    {rows : List (ℕ × ValidRow)} {fr : FactRow}
    (h : fr ∈ (stagedRows ls cs ys rows).map mkFactRow) :
    (∃ l ∈ ls, l.isActive = true ∧ l.locationId = fr.locationId)
    ∧ (∃ c ∈ cs, c.isActive = true ∧ c.conditionId = fr.conditionId)
    ∧ (∃ y ∈ ys, y.isActive = true ∧ y.yearId = fr.yearBuiltId) := by
  obtain ⟨t, ht, rfl⟩ := List.mem_map.1 h
  obtain ⟨hl, hc, hy, _⟩ := stagedRows_resolved ht
  refine ⟨?_, ?_, ?_⟩
  · obtain ⟨l, hlm, hact, _, hid⟩ := locationPairs_mem (dictLookup_mem hl)
    exact ⟨l, hlm, hact, hid⟩
  · obtain ⟨c, hcm, hact, _, hid⟩ := conditionPairs_mem (dictLookup_mem hc)
    exact ⟨c, hcm, hact, hid⟩
  · obtain ⟨y, hym, hact, _, hid⟩ := yearPairs_mem (dictLookup_mem hy)
    exact ⟨y, hym, hact, hid⟩

theorem ingest_raw_ok {rows : List (ℕ × ValidRow)} {s s1 : DBState}
    (h : ingest_raw_data rows s = .ok s1) :
    ∃ raw0, s.rawHouseData = some raw0
      ∧ s1 = { s with rawHouseData := some (rawRowsOf rows) } := by
  unfold ingest_raw_data at h
  split at h
  · exact absurd h (by simp)
  · simp only [Except.ok.injEq] at h
    rename_i raw0 hraw
    exact ⟨raw0, hraw, h.symm⟩

theorem transform_ok {rows : List (ℕ × ValidRow)} {s s2 : DBState}
    (h : transform_and_load_fact_data rows s = .ok s2) :
    ∃ fact0 ls cs ys, s.factHouseTransactions = some fact0
      ∧ s.dimLocations = some ls ∧ s.dimConditions = some cs
      ∧ s.dimYears = some ys
      ∧ s2 = { s with
               factHouseTransactions :=
                 some ((stagedRows ls cs ys rows).map mkFactRow) } := by
  unfold transform_and_load_fact_data at h
  split at h
  · exact absurd h (by simp)
  · rename_i fact0 hfact
    split at h
    · rename_i ls cs ys hls hcs hys
      simp only [Except.ok.injEq] at h
      exact ⟨fact0, ls, cs, ys, hfact, hls, hcs, hys, h.symm⟩
    · exact absurd h (by simp)

theorem ingest_steps_ok {currentYear : ℤ} {csv : CsvFile} {s0 s2 : DBState}
    (h : ingest_house_data_steps currentYear csv s0 = .ok s2) :
    ∃ lr s1, load_and_validate_csv currentYear csv = .ok lr
      ∧ ingest_raw_data lr.rows s0 = .ok s1
      ∧ transform_and_load_fact_data lr.rows s1 = .ok s2 := by
  unfold ingest_house_data_steps at h
  split at h
  · exact absurd h (by simp)
  · rename_i lr hl
    split at h
    · exact absurd h (by simp)
    · rename_i s1 hr
      split at h
      · exact absurd h (by simp)
      · rename_i s2b ht
        simp only [Except.ok.injEq] at h
        rw [← h]
        exact ⟨lr, s1, hl, hr, ht⟩

theorem ingest_house_ok {now : ℕ} {currentYear : ℤ} {csv : CsvFile}
    {b : Bool} {s s2 : DBState}
    (h : ingest_house_data now currentYear csv b s = .ok s2) :
    ∃ lr s1, load_and_validate_csv currentYear csv = .ok lr
      ∧ ingest_raw_data lr.rows
          (if b && s.rawHouseData.isNone then create_schema now s else s)
          = .ok s1
      ∧ transform_and_load_fact_data lr.rows s1 = .ok s2 := by
  unfold ingest_house_data at h
  exact ingest_steps_ok h

theorem length_filterMap_lt_of_mem_none {α β : Type} (g : α → Option β)
    {l : List α} {a : α} (ha : a ∈ l) (hga : g a = none) :
    (l.filterMap g).length < l.length := by
  induction l with
  | nil => simp at ha
  | cons b rest ih =>
    rcases List.mem_cons.1 ha with rfl | ha2
    · rw [List.filterMap_cons_none hga]
      have := List.length_filterMap_le g rest
      simp only [List.length_cons]
      omega
    · cases hgb : g b with
      | none =>
        rw [List.filterMap_cons_none hgb]
        have := ih ha2
        simp only [List.length_cons]
        omega
      | some c =>
        rw [List.filterMap_cons_some hgb]
        have := ih ha2
        simp only [List.length_cons]
        omega

theorem rawRowsOf_mem {rows : List (ℕ × ValidRow)} {i : ℕ} {v : ValidRow}
    (h : (i, v) ∈ rows) :
    ∃ rr ∈ rawRowsOf rows, rr.price = v.price ∧ rr.location = v.location
      ∧ rr.yearBuilt = pyInt v.yearBuilt ∧ rr.condition = v.condition := by
  obtain ⟨k, hk⟩ := exists_withPositions_of_mem 0 h
  unfold rawRowsOf
  exact ⟨_, List.mem_map.2 ⟨(k, (i, v)), hk, rfl⟩, rfl, rfl, rfl, rfl⟩

theorem rawRowsOf_length (rows : List (ℕ × ValidRow)) :
    (rawRowsOf rows).length = rows.length := by
  unfold rawRowsOf
  rw [List.length_map, withPositions_length]

theorem resolveStaged_none_of_loc {lm cm : String → Option ℤ}
    {ym : ℚ → Option ℤ} {p : ℕ × (ℕ × ValidRow)}
    (h : lm p.2.2.location = none) : resolveStaged lm cm ym p = none := by
  unfold resolveStaged
  rw [h]

theorem resolveStaged_none_of_year {lm cm : String → Option ℤ}
    {ym : ℚ → Option ℤ} {p : ℕ × (ℕ × ValidRow)}
    (h : ym p.2.2.yearBuilt = none) : resolveStaged lm cm ym p = none := by
  unfold resolveStaged
  rw [h]
  rcases lm p.2.2.location with _ | lid
  · rfl
  · rcases cm p.2.2.condition with _ | cid <;> rfl

theorem stagedRows_length_lt {ls : List DimLocationRow}
    {cs : List DimConditionRow} {ys : List DimYearRow}
    {rows : List (ℕ × ValidRow)} {k : ℕ} {q : ℕ × ValidRow}
    (hk : (k, q) ∈ withPositions 0 rows)
    (hnone : resolveStaged (dictLookup (locationPairs ls))
      (dictLookup (conditionPairs cs)) (dictLookup (yearPairs ys)) (k, q)
        = none) :
    (stagedRows ls cs ys rows).length < rows.length := by
  unfold stagedRows
  have hlt := length_filterMap_lt_of_mem_none _ hk hnone
  rwa [withPositions_length] at hlt

theorem validate_checks_of_full {s : DBState} {raw : List RawRow}
    {fact : List FactRow} {ls : List DimLocationRow}
    {cs : List DimConditionRow} {ys : List DimYearRow}
    (hraw : s.rawHouseData = some raw)
    (hfact : s.factHouseTransactions = some fact)
    (hls : s.dimLocations = some ls) (hcs : s.dimConditions = some cs)
    (hys : s.dimYears = some ys) :
    (validate_ingestion s).checks.data_consistency
        = some (decide (raw.length = fact.length))
    ∧ (validate_ingestion s).checks.no_orphaned_records
        = some (decide ((fact.filter (fun fr =>
            !(ls.any (fun l => decide (l.locationId = fr.locationId)))
              || !(cs.any (fun c => decide (c.conditionId = fr.conditionId)))
              || !(ys.any (fun y => decide (y.yearId = fr.yearBuiltId))))).length
            = 0)) := by
  unfold validate_ingestion
  rw [hraw, hfact, hls, hcs, hys]
  exact ⟨rfl, rfl⟩

/-! ## Claim C1: raw/fact divergence for an unmapped location -/

/-- C1: in an ingestion run (raw load then fact transformation over the same
validated rows), a row whose `location` has no entry in the active-location
mapping is loaded into `raw_house_data` but excluded from
`fact_house_transactions` (no fact row carries its transaction id), the fact
table ends up strictly smaller than the raw table, and a subsequent
`validate_ingestion` reports `checks.data_consistency = false` because the
raw and fact row counts differ. -/
theorem c1_unmapped_location_row (rows : List (ℕ × ValidRow))
    (s s1 s2 : DBState) (i : ℕ) (v : ValidRow) (ls : List DimLocationRow)
    (h1 : ingest_raw_data rows s = .ok s1)
    (h2 : transform_and_load_fact_data rows s1 = .ok s2)
    (hls : s1.dimLocations = some ls)
    (hmem : (i, v) ∈ rows)
    (hnodup : (rows.map Prod.fst).Nodup)
    (hunmapped : dictLookup (locationPairs ls) v.location = none) :
    ∃ raw fact, s2.rawHouseData = some raw
      ∧ s2.factHouseTransactions = some fact
      ∧ (∃ rr ∈ raw, rr.price = v.price ∧ rr.location = v.location
           ∧ rr.yearBuilt = pyInt v.yearBuilt ∧ rr.condition = v.condition)
      ∧ (∀ fr ∈ fact, fr.transactionId ≠ (i : ℤ) + 1)
      ∧ fact.length < raw.length
      ∧ (validate_ingestion s2).checks.data_consistency = some false := by
  obtain ⟨raw0, hraw0, hs1⟩ := ingest_raw_ok h1
  obtain ⟨fact0, ls2, cs, ys, hfact0, hls2, hcs, hys, hs2⟩ := transform_ok h2
  have hlseq : ls2 = ls := by
    have hx := hls2.symm.trans hls
    injection hx
  rw [hlseq] at hs2
  have hraw2 : s2.rawHouseData = some (rawRowsOf rows) := by
    rw [hs2, hs1]
  have hfact2 : s2.factHouseTransactions
      = some ((stagedRows ls cs ys rows).map mkFactRow) := by
    rw [hs2]
  have hls3 : s2.dimLocations = some ls := by
    rw [hs2]
    exact hls
  have hcs3 : s2.dimConditions = some cs := by
    rw [hs2]
    exact hcs
  have hys3 : s2.dimYears = some ys := by
    rw [hs2]
    exact hys
  have hlt : ((stagedRows ls cs ys rows).map mkFactRow).length
      < (rawRowsOf rows).length := by
    rw [List.length_map, rawRowsOf_length]
    obtain ⟨k, hk⟩ := exists_withPositions_of_mem 0 hmem
    exact stagedRows_length_lt hk (resolveStaged_none_of_loc hunmapped)
  refine ⟨rawRowsOf rows, (stagedRows ls cs ys rows).map mkFactRow, hraw2,
    hfact2, rawRowsOf_mem hmem, ?_, hlt, ?_⟩
  · intro fr hfr heq
    obtain ⟨j, v2, hid, hjv, hsomeL, _, _⟩ := fact_label_resolvable hfr
    have hj : j = i := by
      have := hid.symm.trans heq
      omega
    subst hj
    have hveq : v2 = v := nodup_fst_functional hnodup hjv hmem
    rw [hveq, hunmapped] at hsomeL
    simp at hsomeL
  · obtain ⟨hdc, _⟩ := validate_checks_of_full hraw2 hfact2 hls3 hcs3 hys3
    rw [hdc]
    have hdec : decide ((rawRowsOf rows).length
        = ((stagedRows ls cs ys rows).map mkFactRow).length) = false :=
      decide_eq_false (by omega)
    rw [hdec]

/-- C1 witness: the two-row scenario `wRows1` (one unmapped location) run
against the seeded warehouse `wDB`. -/
theorem c1_witness :
    ∃ raw fact, wS2.rawHouseData = some raw
      ∧ wS2.factHouseTransactions = some fact
      ∧ (∃ rr ∈ raw, rr.price = vNowhere.price
           ∧ rr.location = vNowhere.location
           ∧ rr.yearBuilt = pyInt vNowhere.yearBuilt
           ∧ rr.condition = vNowhere.condition)
      ∧ (∀ fr ∈ fact, fr.transactionId ≠ ((0 : ℕ) : ℤ) + 1)
      ∧ fact.length < raw.length
      ∧ (validate_ingestion wS2).checks.data_consistency = some false :=
  c1_unmapped_location_row wRows1 wDB wS1 wS2 0 vNowhere
    [⟨1, "Suburb", "Residential", true, 0⟩] (by decide) (by decide)
    (by decide) (by decide) (by decide) (by decide)

/-! ## Claim C2: no orphaned fact rows -/

/-- C2: after `ingest_house_data` completes successfully, every row of the
fact table references, through each of its three foreign keys, a dimension
row that exists and is active, and `validate_ingestion`'s orphan check (the
left-join of fact to the three dimensions) reports zero orphans. -/
theorem c2_fact_keys_active (now : ℕ) (currentYear : ℤ) (csv : CsvFile)
    (b : Bool) (s s2 : DBState)
    (hrun : ingest_house_data now currentYear csv b s = .ok s2) :
    ∃ fact ls cs ys, s2.factHouseTransactions = some fact
      ∧ s2.dimLocations = some ls ∧ s2.dimConditions = some cs
      ∧ s2.dimYears = some ys
      ∧ (∀ fr ∈ fact,
          (∃ l ∈ ls, l.isActive = true ∧ l.locationId = fr.locationId)
          ∧ (∃ c ∈ cs, c.isActive = true ∧ c.conditionId = fr.conditionId)
          ∧ (∃ y ∈ ys, y.isActive = true ∧ y.yearId = fr.yearBuiltId))
      ∧ (validate_ingestion s2).checks.no_orphaned_records = some true := by
  obtain ⟨lr, s1, hl, hr, ht⟩ := ingest_house_ok hrun
  obtain ⟨raw0, hraw0, hs1⟩ := ingest_raw_ok hr
  obtain ⟨fact0, ls, cs, ys, hfact0, hls, hcs, hys, hs2⟩ := transform_ok ht
  have hraw2 : s2.rawHouseData = some (rawRowsOf lr.rows) := by
    rw [hs2, hs1]
  have hfact2 : s2.factHouseTransactions
      = some ((stagedRows ls cs ys lr.rows).map mkFactRow) := by
    rw [hs2]
  have hls3 : s2.dimLocations = some ls := by
    rw [hs2]
    exact hls
  have hcs3 : s2.dimConditions = some cs := by
    rw [hs2]
    exact hcs
  have hys3 : s2.dimYears = some ys := by
    rw [hs2]
    exact hys
  refine ⟨_, ls, cs, ys, hfact2, hls3, hcs3, hys3, ?_, ?_⟩
  · intro fr hfr
    exact fact_refs_active hfr
  · obtain ⟨_, hno⟩ := validate_checks_of_full hraw2 hfact2 hls3 hcs3 hys3
    rw [hno]
    have hempty : (((stagedRows ls cs ys lr.rows).map mkFactRow).filter
        (fun fr =>
          !(ls.any (fun l => decide (l.locationId = fr.locationId)))
            || !(cs.any (fun c => decide (c.conditionId = fr.conditionId)))
            || !(ys.any (fun y => decide (y.yearId = fr.yearBuiltId)))))
        = [] := by
      rw [List.filter_eq_nil_iff]
      intro fr hfr
      obtain ⟨⟨l, hlm, _, hlid⟩, ⟨c, hcm, _, hcid⟩, ⟨y, hym, _, hyid⟩⟩ :=
        fact_refs_active hfr
      have hA : ls.any (fun l2 => decide (l2.locationId = fr.locationId))
          = true := List.any_eq_true.2 ⟨l, hlm, decide_eq_true hlid⟩
      have hB : cs.any (fun c2 => decide (c2.conditionId = fr.conditionId))
          = true := List.any_eq_true.2 ⟨c, hcm, decide_eq_true hcid⟩
      have hC : ys.any (fun y2 => decide (y2.yearId = fr.yearBuiltId))
          = true := List.any_eq_true.2 ⟨y, hym, decide_eq_true hyid⟩
      simp [hA, hB, hC]
    rw [hempty]
    rfl

/-- C2 witness: a one-row fully mappable CSV ingested against `wDB`. -/
theorem c2_witness :
    ∃ fact ls cs ys, wS2c2.factHouseTransactions = some fact
      ∧ wS2c2.dimLocations = some ls ∧ wS2c2.dimConditions = some cs
      ∧ wS2c2.dimYears = some ys
      ∧ (∀ fr ∈ fact,
          (∃ l ∈ ls, l.isActive = true ∧ l.locationId = fr.locationId)
          ∧ (∃ c ∈ cs, c.isActive = true ∧ c.conditionId = fr.conditionId)
          ∧ (∃ y ∈ ys, y.isActive = true ∧ y.yearId = fr.yearBuiltId))
      ∧ (validate_ingestion wS2c2).checks.no_orphaned_records = some true :=
  c2_fact_keys_active 0 2026 wCsv2 true wDB wS2c2 (by decide)

/-! ## Claim C3: CSV validation boundaries and stage order -/

/-- C3: in `_load_and_validate_csv` a labelled row survives iff it coerces
with no NaN and passes the range filter — so a row with `year_built = 1899`
is dropped and one with `year_built = 1900` is retained (inclusive lower
bound, upper bound `datetime.now().year` inclusive), and `price`, `sqft`,
`bedrooms`, `bathrooms` must be strictly positive.  The coercion/NaN drop
count is taken over all rows while the range drop count is taken only over
the NaN-free rows, i.e. the coercion-based drop happens strictly before the
range filter. -/
theorem c3_load_validate_boundaries (currentYear : ℤ) (f : CsvFile)
    (lr : LoadResult) (hok : load_and_validate_csv currentYear f = .ok lr) :
    (∀ (i : ℕ) (r : CsvRow) (v : ValidRow), f.rows.get? i = some r →
      ((i, v) ∈ lr.rows ↔
        (dropnaRow (coerceRow r) = some v ∧ rangeOk currentYear v = true)))
    ∧ (∀ p ∈ lr.rows,
        0 < p.2.price ∧ 0 < p.2.sqft ∧ 0 < p.2.bedrooms ∧ 0 < p.2.bathrooms
          ∧ (1900 : ℚ) ≤ p.2.yearBuilt ∧ p.2.yearBuilt ≤ (currentYear : ℚ))
    ∧ lr.coercionDropped
        = (f.rows.filter (fun r => !(dropnaRow (coerceRow r)).isSome)).length
    ∧ lr.rangeDropped
        = ((f.rows.filterMap (fun r => dropnaRow (coerceRow r))).filter
            (fun v => !(rangeOk currentYear v))).length := by
  have hlr := load_and_validate_ok hok
  subst hlr
  refine ⟨?_, ?_, ?_, ?_⟩
  · intro i r v hget
    show (i, v) ∈ finalRows currentYear f ↔ _
    rw [mem_finalRows]
    constructor
    · rintro ⟨⟨r2, hget2, hdn⟩, hrange⟩
      have hr : r2 = r := by
        have := hget2.symm.trans hget
        injection this
      rw [hr] at hdn
      exact ⟨hdn, hrange⟩
    · rintro ⟨hdn, hrange⟩
      exact ⟨⟨r, hget, hdn⟩, hrange⟩
  · intro p hp
    have hp2 : p ∈ finalRows currentYear f := hp
    unfold finalRows at hp2
    have hrange := (List.mem_filter.1 hp2).2
    simp only [rangeOk, Bool.and_eq_true, decide_eq_true_eq] at hrange
    obtain ⟨⟨⟨⟨⟨h1, h2⟩, h3⟩, h4⟩, h5⟩, h6⟩ := hrange
    exact ⟨h1, h2, h3, h4, h5, h6⟩
  · show (coercedRows f).length - (keptRows f).length = _
    rw [coercedRows_length, keptRows_length]
    exact length_filter_not _ f.rows
  · show (keptRows f).length - (finalRows currentYear f).length = _
    unfold finalRows
    rw [length_filter_not (fun p => rangeOk currentYear p.2) (keptRows f)]
    rw [← keptRows_snd]
    exact filter_snd_length (fun v => !(rangeOk currentYear v)) (keptRows f)

/-- C3 witness: on a concrete four-row CSV (year 1900 valid, year 1899,
price 0, missing price) at current year 2026, the 1900 row is retained, the
1899 row is dropped, and the drop counts are 1 (coercion) and 2 (range). -/
theorem c3_witness :
    ((0, v1900) ∈ wLr3.rows)
    ∧ ¬ ((1, v1899) ∈ wLr3.rows)
    ∧ wLr3.coercionDropped
        = (wCsv3.rows.filter
            (fun r => !(dropnaRow (coerceRow r)).isSome)).length
    ∧ wLr3.coercionDropped = 1 ∧ wLr3.rangeDropped = 2 := by
  have h := c3_load_validate_boundaries 2026 wCsv3 wLr3 (by decide)
  refine ⟨?_, ?_, h.2.2.1, by decide, by decide⟩
  · exact (h.1 0 wRow1900 v1900 (by decide)).mpr (by decide)
  · intro hmem
    have hdrop := (h.1 1 wRow1899 v1899 (by decide)).mp hmem
    revert hdrop
    decide

/-! ## Claim C4: idempotent schema creation -/

/-- C4: `create_schema` is idempotent: running it a second time (at any later
timestamp) returns the warehouse unchanged — in particular the set of
existing tables, the set of views, and the row counts and contents of
`dim_locations`, `dim_conditions` and `dim_years` are unchanged, because the
DDL uses create-if-not-exists / create-or-replace and the seeding upserts by
surrogate key, producing no duplicates. -/
theorem c4_create_schema_idempotent (now now2 : ℕ) (s : DBState) :
    create_schema now2 (create_schema now s) = create_schema now s := by
  unfold create_schema insert_dimension_data runSchemaDDL
  simp [insertLocations_idem, insertConditions_idem, insertYears_idem,
    addViews_idem]

/-! ## Claim C6: dimension seed data -/

/-- C6: `_insert_dimension_data` on freshly created (empty) dimension tables
seeds exactly the six named locations and four named conditions of the
source, and one row per year in the closed range 1940–2020, where each year
row's decade is `floor(year/10)*10` suffixed `"s"` and its century is
`"20th"` for years below 2000 and `"21st"` otherwise. -/
theorem c6_dimension_seed_data (now : ℕ) :
    (insertLocations now []).map
        (fun r => (r.locationId, r.locationName, r.locationType))
      = [(1, "Suburb", "Residential"), (2, "Downtown", "Urban"),
         (3, "Rural", "Rural"), (4, "Waterfront", "Premium"),
         (5, "Urban", "Urban"), (6, "Mountain", "Premium")]
    ∧ (insertConditions now []).map
        (fun r => (r.conditionId, r.conditionName, r.conditionScore))
      = [(1, "Poor", 1), (2, "Fair", 2), (3, "Good", 3), (4, "Excellent", 4)]
    ∧ (insertYears now []).length = 81
    ∧ (∀ r ∈ insertYears now [],
        (1940 ≤ r.yearValue ∧ r.yearValue ≤ 2020)
          ∧ r.decade = toString (r.yearValue / 10 * 10) ++ "s"
          ∧ r.century = if r.yearValue < 2000 then "20th" else "21st")
    ∧ (∀ y : ℤ, 1940 ≤ y → y ≤ 2020 →
        ∃ r ∈ insertYears now [], r.yearValue = y)
    ∧ ((insertYears now []).map (fun r => r.yearValue)).Nodup := by
  refine ⟨?_, ?_, ?_, ?_, ?_, ?_⟩
  · rw [insertLocations_empty]
    rfl
  · rw [insertConditions_empty]
    rfl
  · rw [insertYears_empty]
    simp [yearSeeds]
  · rw [insertYears_empty]
    intro r hr
    obtain ⟨sp, hsp, rfl⟩ := List.mem_map.1 hr
    simp only [yearSeeds] at hsp
    obtain ⟨i, hi, rfl⟩ := List.mem_map.1 hsp
    have hi2 := List.mem_range.1 hi
    refine ⟨⟨?_, ?_⟩, ?_, ?_⟩
    · show (1940 : ℤ) ≤ (1940 : ℤ) + (i : ℤ)
      omega
    · show (1940 : ℤ) + (i : ℤ) ≤ 2020
      omega
    · simp only [yearNew]
    · simp only [yearNew]
  · rw [insertYears_empty]
    intro y h1 h2
    have hmem : (((y - 1940).toNat : ℤ) + 1,
        (1940 : ℤ) + ((y - 1940).toNat : ℤ),
        toString (((1940 : ℤ) + ((y - 1940).toNat : ℤ)) / 10 * 10) ++ "s",
        if ((1940 : ℤ) + ((y - 1940).toNat : ℤ)) < 2000 then "20th"
          else "21st") ∈ yearSeeds := by
      simp only [yearSeeds]
      exact List.mem_map.2 ⟨(y - 1940).toNat, List.mem_range.2 (by omega), rfl⟩
    refine ⟨yearNew now _, List.mem_map.2 ⟨_, hmem, rfl⟩, ?_⟩
    show (1940 : ℤ) + ((y - 1940).toNat : ℤ) = y
    omega
  · rw [insertYears_empty]
    have hval : (yearSeeds.map (yearNew now)).map (fun r => r.yearValue)
        = (List.range 81).map (fun (i : ℕ) => (1940 : ℤ) + (i : ℤ)) := by
      simp [yearSeeds, List.map_map, Function.comp, yearNew]
    rw [hval]
    have hinj : Function.Injective (fun (i : ℕ) => (1940 : ℤ) + (i : ℤ)) := by
      intro a b h
      simpa using h
    exact (List.nodup_range 81).map hinj

/-- C6 witness: the seed-coverage clause applied at the concrete year
1999. -/
theorem c6_witness : ∃ r ∈ insertYears 0 [], r.yearValue = 1999 :=
  (c6_dimension_seed_data 0).2.2.2.2.1 1999 (by norm_num) (by norm_num)

/-! ## Claims C5 and C7: further transformation properties -/

theorem insertYears_empty_value_bounds (now : ℕ) :
    ∀ r ∈ insertYears now [], 1940 ≤ r.yearValue ∧ r.yearValue ≤ 2020 := by
  rw [insertYears_empty]
  intro r hr
  obtain ⟨sp, hsp, rfl⟩ := List.mem_map.1 hr
  simp only [yearSeeds] at hsp
  obtain ⟨i2, hi, rfl⟩ := List.mem_map.1 hsp
  have hi2 := List.mem_range.1 hi
  constructor
  · show (1940 : ℤ) ≤ (1940 : ℤ) + (i2 : ℤ)
    omega
  · show (1940 : ℤ) + (i2 : ℤ) ≤ 2020
    omega

theorem create_schema_emptyDB (now : ℕ) :
    create_schema now emptyDB
      = { rawHouseData := some []
        , dimLocations := some (insertLocations now [])
        , dimConditions := some (insertConditions now [])
        , dimYears := some (insertYears now [])
        , factHouseTransactions := some []
        , views := addViews [] } := rfl

/-- C5: a CSV row with `year_built` in 1900–1939 (or 2021 up to the current
year) passes CSV validation, so a full `ingest_house_data` run on a fresh
(empty) warehouse loads it into `raw_house_data`; but `dim_years` is seeded
only for 1940–2020, so the year key cannot resolve and the row is silently
excluded from the fact table (no fact row carries its transaction id). -/
theorem c5_unseeded_year_excluded (now : ℕ) (currentYear : ℤ)
    (csv : CsvFile) (lr : LoadResult) (i : ℕ) (v : ValidRow) (y : ℤ)
    (hload : load_and_validate_csv currentYear csv = .ok lr)
    (hmem : (i, v) ∈ lr.rows)
    (hy : v.yearBuilt = (y : ℚ))
    (hrange : (1900 ≤ y ∧ y ≤ 1939) ∨ (2021 ≤ y ∧ y ≤ currentYear)) :
    ∃ s2, ingest_house_data now currentYear csv true emptyDB = .ok s2
      ∧ (∃ raw, s2.rawHouseData = some raw
          ∧ ∃ rr ∈ raw, rr.price = v.price ∧ rr.location = v.location
              ∧ rr.yearBuilt = pyInt v.yearBuilt
              ∧ rr.condition = v.condition)
      ∧ (∃ fact, s2.factHouseTransactions = some fact
          ∧ ∀ fr ∈ fact, fr.transactionId ≠ (i : ℤ) + 1) := by
  refine ⟨{ create_schema now emptyDB with
            rawHouseData := some (rawRowsOf lr.rows)
          , factHouseTransactions :=
              some ((stagedRows (insertLocations now [])
                (insertConditions now []) (insertYears now [])
                lr.rows).map mkFactRow) }, ?_, ?_, ?_⟩
  · show ingest_house_data_steps currentYear csv (create_schema now emptyDB)
        = _
    unfold ingest_house_data_steps
    rw [hload]
    rfl
  · exact ⟨rawRowsOf lr.rows, rfl, rawRowsOf_mem hmem⟩
  · refine ⟨_, rfl, ?_⟩
    have hnodup : (lr.rows.map Prod.fst).Nodup := by
      rw [load_and_validate_ok hload]
      exact finalRows_fst_nodup currentYear csv
    have hyearnone :
        dictLookup (yearPairs (insertYears now [])) v.yearBuilt = none := by
      rw [hy]
      apply dictLookup_eq_none.2
      intro p hp
      obtain ⟨q, id⟩ := p
      obtain ⟨r, hr, _, hval, _⟩ := yearPairs_mem hp
      obtain ⟨hb1, hb2⟩ := insertYears_empty_value_bounds now r hr
      intro hqy
      rw [← hval] at hqy
      have hqy2 : (r.yearValue : ℚ) = (y : ℚ) := hqy
      have hvy : r.yearValue = y := by exact_mod_cast hqy2
      omega
    intro fr hfr heq
    obtain ⟨j, v2, hid, hjv, _, _, hsomeY⟩ := fact_label_resolvable hfr
    have hj : j = i := by
      have := hid.symm.trans heq
      omega
    subst hj
    have hveq : v2 = v := nodup_fst_functional hnodup hjv hmem
    rw [hveq, hyearnone] at hsomeY
    simp at hsomeY

/-- C5 witness: a one-row CSV with `year_built = 1925` ingested into a fresh
warehouse at current year 2026. -/
theorem c5_witness :
    ∃ s2, ingest_house_data 0 2026 wCsv5 true emptyDB = .ok s2
      ∧ (∃ raw, s2.rawHouseData = some raw
          ∧ ∃ rr ∈ raw, rr.price = v1925.price ∧ rr.location = v1925.location
              ∧ rr.yearBuilt = pyInt v1925.yearBuilt
              ∧ rr.condition = v1925.condition)
      ∧ (∃ fact, s2.factHouseTransactions = some fact
          ∧ ∀ fr ∈ fact, fr.transactionId ≠ ((0 : ℕ) : ℤ) + 1) :=
  c5_unseeded_year_excluded 0 2026 wCsv5 wLr5 0 v1925 1925 (by decide)
    (by decide) (by decide) (Or.inl (by norm_num))

theorem filterMap_map_eq {α β γ : Type} (g : α → Option β) (f : β → γ)
    (p : α → Bool) (hfun : α → γ)
    (H : ∀ x, (g x).map f = if p x then some (hfun x) else none)
    (l : List α) :
    (l.filterMap g).map f = (l.filter p).map hfun := by
  induction l with
  | nil => rfl
  | cons a rest ih =>
    have Ha := H a
    rcases hga : g a with _ | b <;> rw [hga] at Ha
    · rw [List.filterMap_cons_none hga, List.filter_cons]
      cases hpa : p a
      · simp [hpa, ih]
      · rw [hpa] at Ha
        simp at Ha
    · rw [List.filterMap_cons_some hga, List.filter_cons]
      cases hpa : p a
      · rw [hpa] at Ha
        simp at Ha
      · rw [hpa] at Ha
        simp only [if_pos] at Ha
        simp [hpa, Ha, ih]
        simp at Ha
        simp [Ha]

/-- C7 counterexample: for the two-row input `wRows1` (first row unmapped,
second mappable) the single surviving fact row receives `transaction_id = 2`
— its pre-filter index label plus one — not the positional id 1 the claim
predicts for the post-filter data. -/
theorem c7_counterexample :
    transform_and_load_fact_data wRows1 wDB = .ok wS2c7
    ∧ wFact1.map (fun fr => fr.transactionId) = [2]
    ∧ ¬ (wFact1.map (fun fr => fr.transactionId) = [1]) := by
  refine ⟨by decide, by decide, by decide⟩

/-- C7 (amended): `_transform_and_load_fact_data` keeps exactly the rows
whose three business keys all resolve, and each surviving row's
`transaction_id` is its pandas index label plus one (its position in the
dataframe before the dimension filter) while `house_id` is its position
among the rows entering the transform plus one — neither id is renumbered
after the filter, so surviving rows do not in general receive `1..M`. -/
theorem c7_transaction_ids_from_labels (rows : List (ℕ × ValidRow))
    (s s2 : DBState) (h : transform_and_load_fact_data rows s = .ok s2) :
    ∃ fact ls cs ys, s2.factHouseTransactions = some fact
      ∧ s.dimLocations = some ls ∧ s.dimConditions = some cs
      ∧ s.dimYears = some ys
      ∧ fact.map (fun fr => (fr.transactionId, fr.houseId))
          = ((withPositions 0 rows).filter (fun p =>
                (dictLookup (locationPairs ls) p.2.2.location).isSome
                  && (dictLookup (conditionPairs cs) p.2.2.condition).isSome
                  && (dictLookup (yearPairs ys) p.2.2.yearBuilt).isSome)).map
              (fun p => ((p.2.1 : ℤ) + 1, (p.1 : ℤ) + 1)) := by
  obtain ⟨fact0, ls, cs, ys, hfact0, hls, hcs, hys, hs2⟩ := transform_ok h
  refine ⟨_, ls, cs, ys, by rw [hs2], hls, hcs, hys, ?_⟩
  unfold stagedRows
  rw [List.map_map]
  apply filterMap_map_eq
  intro x
  unfold resolveStaged
  rcases hl2 : dictLookup (locationPairs ls) x.2.2.location with _ | lid <;>
    rcases hc2 : dictLookup (conditionPairs cs) x.2.2.condition
      with _ | cid <;>
    rcases hy2 : dictLookup (yearPairs ys) x.2.2.yearBuilt with _ | yid <;>
    simp [hl2, hc2, hy2, mkFactRow, Function.comp]

/-- C7 witness for the amended claim: the two-row scenario evaluated
concretely. -/
theorem c7_witness :
    ∃ fact ls cs ys, wS2c7.factHouseTransactions = some fact
      ∧ wDB.dimLocations = some ls ∧ wDB.dimConditions = some cs
      ∧ wDB.dimYears = some ys
      ∧ fact.map (fun fr => (fr.transactionId, fr.houseId))
          = ((withPositions 0 wRows1).filter (fun p =>
                (dictLookup (locationPairs ls) p.2.2.location).isSome
                  && (dictLookup (conditionPairs cs) p.2.2.condition).isSome
                  && (dictLookup (yearPairs ys) p.2.2.yearBuilt).isSome)).map
              (fun p => ((p.2.1 : ℤ) + 1, (p.1 : ℤ) + 1)) :=
  c7_transaction_ids_from_labels wRows1 wDB wS2c7 (by decide)

/-! ## Claim C9: validation status classification -/

/-- C9 counterexample: on a warehouse where `raw_house_data` exists but the
fact and dimension tables are missing, the table-existence checks fail and
the errors list is non-empty, yet `validate_ingestion` returns status
`"error"` (the orphan query throws on the missing tables and the handler
discards the accumulated checks), not `"failed"` — refuting the claimed
equivalence between status `"failed"` and a failing check / non-empty
errors list. -/
theorem c9_counterexample :
    (validate_ingestion sBad).errors ≠ []
    ∧ (validate_ingestion sBad).status = "error"
    ∧ (validate_ingestion sBad).status ≠ "failed"
    ∧ (validate_ingestion sBad).checks = emptyChecks
    ∧ sBad.rawHouseData.isSome = true
    ∧ sBad.factHouseTransactions = none := by
  refine ⟨by decide, by decide, by decide, by decide, by decide, by decide⟩

/-- C9 (amended): `validate_ingestion` returns status `"error"` exactly when
the orphan query throws, i.e. when the fact table or any dimension table is
missing (even though table-existence checks failed, which the claim would
classify as `"failed"`); it never raises.  When all those tables exist, the
run completes and status is `"failed"` iff the errors list is non-empty iff
some recorded check is false. -/
theorem c9_status_classification (s : DBState) :
    ((validate_ingestion s).status = "error"
      ↔ (s.factHouseTransactions = none ∨ s.dimLocations = none
          ∨ s.dimConditions = none ∨ s.dimYears = none))
    ∧ (s.factHouseTransactions ≠ none → s.dimLocations ≠ none →
        s.dimConditions ≠ none → s.dimYears ≠ none →
        (((validate_ingestion s).status = "failed"
            ↔ (validate_ingestion s).errors ≠ [])
          ∧ ((validate_ingestion s).errors ≠ []
            ↔ ((validate_ingestion s).checks.table_exists_raw_house_data
                  = some false
                ∨ (validate_ingestion s).checks.data_consistency = some false
                ∨ (validate_ingestion s).checks.no_orphaned_records
                  = some false)))) := by
  rcases hf : s.factHouseTransactions with _ | fact <;>
    rcases hl : s.dimLocations with _ | ls <;>
    rcases hc : s.dimConditions with _ | cs <;>
    rcases hy : s.dimYears with _ | ys
  all_goals try (simp [validate_ingestion, hf, hl, hc, hy]; done)
  rcases hr : s.rawHouseData with _ | raw
  · by_cases horph : (fact.filter (fun fr =>
        !(ls.any (fun l => decide (l.locationId = fr.locationId)))
          || !(cs.any (fun c => decide (c.conditionId = fr.conditionId)))
          || !(ys.any (fun y => decide (y.yearId = fr.yearBuiltId))))).length
        = 0 <;>
      simp [validate_ingestion, hf, hl, hc, hy, hr, horph]
  · by_cases hcnt : raw.length = fact.length <;>
      by_cases horph : (fact.filter (fun fr =>
          !(ls.any (fun l => decide (l.locationId = fr.locationId)))
            || !(cs.any (fun c => decide (c.conditionId = fr.conditionId)))
            || !(ys.any (fun y => decide (y.yearId = fr.yearBuiltId))))).length
          = 0 <;>
      simp [validate_ingestion, hf, hl, hc, hy, hr, hcnt, horph]

/-- C9 witness: the classification applied to the concrete seeded warehouse
`wDB` (all tables present). -/
theorem c9_witness :
    (validate_ingestion wDB).status = "failed"
      ↔ (validate_ingestion wDB).errors ≠ [] :=
  ((c9_status_classification wDB).2 (by decide) (by decide) (by decide)
    (by decide)).1

/-! ## Claim C8: exception behaviour of `execute_query` -/

/-- C8 counterexample: on engine failure `execute_query` re-raises the
underlying engine exception itself; the raised error is not a
`DataQueryError`, contradicting the claim that a `DataQueryError` carrying
the truncated statement is raised.  (`DataQueryError` is defined in
`src/core/exceptions.py` but never raised anywhere in `database.py`.) -/
theorem c8_counterexample :
    execute_query failingEngine "SELECT * FROM missing"
        = .error (.engineError "Catalog Error: Table with name missing does not exist")
      ∧ raisesDataQueryError (execute_query failingEngine "SELECT * FROM missing") = false := by
  constructor
  · rfl
  · rfl

/-- C8 (amended): on engine failure `execute_query` re-raises the underlying
engine exception unchanged — it never swallows the failure, never retries,
and never wraps it in a `DataQueryError`; on engine success it returns the
engine's result unchanged. -/
theorem c8_error_propagation {α : Type} (engine : String → Except String α)
    (q : String) :
    (∀ msg, engine q = .error msg →
        execute_query engine q = .error (.engineError msg))
      ∧ (∀ r, engine q = .ok r → execute_query engine q = .ok r)
      ∧ (∀ e, execute_query engine q = .error e → e.isDataQueryError = false) := by
  refine ⟨?_, ?_, ?_⟩
  · intro msg h
    simp [execute_query, h]
  · intro r h
    simp [execute_query, h]
  · intro e h
    unfold execute_query at h
    cases hq : engine q with
    | ok df => rw [hq] at h; exact absurd h (by simp)
    | error msg =>
      rw [hq] at h
      simp only [Except.error.injEq] at h
      rw [← h]
      rfl

/-- C8 witness: the propagation theorem applied to a concretely failing
engine call. -/
theorem c8_witness :
    execute_query failingEngine "SELECT 1"
      = .error (.engineError "Catalog Error: Table with name missing does not exist") :=
  (c8_error_propagation failingEngine "SELECT 1").1
    "Catalog Error: Table with name missing does not exist" rfl

/-! ## Claim C10: `disconnect` -/

/-- C10 counterexample: when the underlying `close()` raises, `disconnect`
swallows the exception but the stored handle is not cleared, so the manager
is not left in the "not connected" state the claim asserts. -/
theorem c10_counterexample :
    disconnect (some ⟨true⟩) = some ⟨true⟩ ∧ disconnect (some ⟨true⟩) ≠ none := by
  constructor
  · rfl
  · intro h
    simp [disconnect] at h

/-- C10 (amended): `disconnect` never raises (it is a total state
transformer) and is idempotent; calling it before any `connect()` is a
no-op; when `close()` succeeds the stored handle is cleared; when `close()`
raises the error is swallowed and the stale handle remains stored. -/
theorem c10_disconnect_idempotent :
    (∀ conn, disconnect (disconnect conn) = disconnect conn)
      ∧ disconnect none = none
      ∧ (∀ h : ConnHandle, h.closeRaises = false → disconnect (some h) = none)
      ∧ (∀ h : ConnHandle, h.closeRaises = true → disconnect (some h) = some h) := by
  refine ⟨?_, rfl, ?_, ?_⟩
  · intro conn
    match conn with
    | none => rfl
    | some h =>
      by_cases hc : h.closeRaises
      · simp [disconnect, hc]
      · simp [disconnect, hc]
  · intro h hc
    simp [disconnect, hc]
  · intro h hc
    simp [disconnect, hc]

/-- C10 witness: the amended theorem applied to a handle whose `close()`
succeeds. -/
theorem c10_witness : disconnect (some ⟨false⟩) = none :=
  c10_disconnect_idempotent.2.2.1 ⟨false⟩ rfl

end DWH
